import Mathlib

/-!
Verification development for a VM-to-assembly translator (Go, nand2tetris
style).  The translator parses "VM" commands (push/pop/arithmetic/branching/
function-call commands), generates Hack-assembly text lines, sequences input
modules so the module containing `function Sys.init 0` is scanned last, and
prepends a bootstrap when that entry point exists.

The definitions below are a shallow embedding of the Go source:
pure functions become Lean functions, the mutable generator globals
(`currentFunctionName`, `retIndex`) become an explicit `GenSt` record that is
threaded through generation, and fallible code returns a `GoResult` value
(`ok` / `err msg` mirror Go's `(value, error)` returns, `panics` mirrors a Go
runtime panic such as an out-of-range slice index).

Machine integers: all quantities involved in the claims (stack pointer
deltas, segment bases, small offsets) are far from 16-bit wraparound, so the
embedding uses unbounded `Int` for machine words and addresses.

Strings: Go builds output lines with `fmt.Sprintf("%d", ·)` etc.; the
embedding uses its own decimal printer `natReprL` / `intReprS` (proved
correct against its own decimal reader below) so that the emitted text can be
reasoned about symbolically.  Case mappings (`strings.ToUpper`/`ToLower`) are
embedded as ASCII case mappings; every string they are applied to in the
generator is ASCII.
-/

namespace VM

/-! ## Character and string utilities -/

/-- Decimal digit character: `digitChar d` is `'0'`..`'9'` for `d < 10`. -/
def digitChar (d : Nat) : Char := Char.ofNat (48 + d)

/-- Is `c` an ASCII decimal digit? -/
def isDigB (c : Char) : Bool := 48 ≤ c.toNat && c.toNat ≤ 57

/-- Digits of `n` in base 10 (most significant first), prepended to `acc`.
Mirrors the output of Go's `fmt.Sprintf("%d", n)` for `n ≥ 0`. -/
def natReprAux (n : Nat) (acc : List Char) : List Char :=
  if h : n < 10 then digitChar n :: acc
  else natReprAux (n / 10) (digitChar (n % 10) :: acc)
  termination_by n
  decreasing_by exact Nat.div_lt_self (by omega) (by omega)

/-- Fuel-driven version of `natReprAux` (structurally recursive, so concrete
instances evaluate by `rfl`/`decide`); `natReprAuxF_eq` shows the two agree
when the fuel dominates `n`. -/
def natReprAuxF : Nat → Nat → List Char → List Char
  | 0, _, acc => acc
  | fuel + 1, n, acc =>
    if n < 10 then digitChar n :: acc
    else natReprAuxF fuel (n / 10) (digitChar (n % 10) :: acc)

/-- Decimal representation of a natural number, as a character list. -/
def natReprL (n : Nat) : List Char := natReprAuxF (n + 1) n []

/-- Decimal representation of a natural number, as a string. -/
def natReprS (n : Nat) : String := String.mk (natReprL n)

/-- Decimal representation of an integer (Go `fmt.Sprintf("%d", n)`). -/
def intReprL (n : Int) : List Char :=
  if n < 0 then '-' :: natReprL n.natAbs else natReprL n.natAbs

/-- Decimal representation of an integer, as a string. -/
def intReprS (n : Int) : String := String.mk (intReprL n)

/-- Read an all-digits, non-empty character list as a natural number. -/
def parseNumL (cs : List Char) : Option Nat :=
  if cs = [] then none
  else if cs.all isDigB then
    some (cs.foldl (fun a c => a * 10 + (c.toNat - 48)) 0)
  else none

theorem digitChar_toNat (d : Nat) (h : d < 10) : (digitChar d).toNat = 48 + d := by
  interval_cases d <;> rfl

theorem isDigB_digitChar (d : Nat) (h : d < 10) : isDigB (digitChar d) = true := by
  interval_cases d <;> rfl

theorem natReprAux_unfold (n : Nat) (acc : List Char) :
    natReprAux n acc =
      if n < 10 then digitChar n :: acc
      else natReprAux (n / 10) (digitChar (n % 10) :: acc) := by
  rw [natReprAux]
  by_cases h : n < 10 <;> simp [h]

theorem natReprAuxF_eq (fuel n : Nat) (acc : List Char) (h : n < fuel) :
    natReprAuxF fuel n acc = natReprAux n acc := by
  induction fuel generalizing n acc with
  | zero => omega
  | succ fuel ih =>
    rw [natReprAux_unfold]
    unfold natReprAuxF
    by_cases h10 : n < 10
    · simp [h10]
    · rw [if_neg h10, if_neg h10, ih _ _ (by omega)]

theorem natReprL_eq_aux (n : Nat) : natReprL n = natReprAux n [] :=
  natReprAuxF_eq (n + 1) n [] (by omega)

theorem natReprAux_append (n : Nat) (acc : List Char) :
    natReprAux n acc = natReprAux n [] ++ acc := by
  induction n using Nat.strong_induction_on generalizing acc with
  | _ n ih =>
    by_cases h : n < 10
    · conv_lhs => rw [natReprAux_unfold]
      conv_rhs => rw [natReprAux_unfold]
      simp [h]
    · conv_lhs => rw [natReprAux_unfold]
      conv_rhs => rw [natReprAux_unfold]
      simp only [h, if_false]
      rw [ih (n / 10) (Nat.div_lt_self (by omega) (by omega)),
        ih (n / 10) (Nat.div_lt_self (by omega) (by omega))
          (digitChar (n % 10) :: [])]
      simp

theorem natReprL_ne_nil (n : Nat) : natReprL n ≠ [] := by
  rw [natReprL_eq_aux]
  by_cases h : n < 10
  · rw [natReprAux_unfold]; simp [h]
  · rw [natReprAux_unfold]; simp only [h, if_false]
    rw [natReprAux_append]; simp

theorem natReprL_all_digits (n : Nat) : ∀ c ∈ natReprL n, isDigB c = true := by
  induction n using Nat.strong_induction_on with
  | _ n ih =>
    intro c hc
    rw [natReprL_eq_aux] at hc
    by_cases h : n < 10
    · rw [natReprAux_unfold] at hc
      simp [h] at hc
      subst hc; exact isDigB_digitChar n h
    · rw [natReprAux_unfold] at hc
      simp only [h, if_false] at hc
      rw [natReprAux_append] at hc
      rcases List.mem_append.mp hc with h1 | h2
      · exact ih (n / 10) (Nat.div_lt_self (by omega) (by omega)) c
          (by rw [natReprL_eq_aux]; exact h1)
      · simp at h2
        subst h2
        exact isDigB_digitChar _ (Nat.mod_lt _ (by omega))

theorem foldl_natReprL (n : Nat) :
    (natReprL n).foldl (fun a c => a * 10 + (c.toNat - 48)) 0 = n := by
  induction n using Nat.strong_induction_on with
  | _ n ih =>
    rw [natReprL_eq_aux]
    by_cases h : n < 10
    · rw [natReprAux_unfold]
      simp [h, digitChar_toNat n h]
    · rw [natReprAux_unfold]
      simp only [h, if_false]
      rw [natReprAux_append, List.foldl_append]
      have := ih (n / 10) (Nat.div_lt_self (by omega) (by omega))
      rw [natReprL_eq_aux] at this
      rw [this]
      simp [digitChar_toNat _ (Nat.mod_lt n (by omega))]
      omega

/-- The decimal reader inverts the decimal printer. -/
theorem parseNumL_natReprL (n : Nat) : parseNumL (natReprL n) = some n := by
  unfold parseNumL
  rw [if_neg (natReprL_ne_nil n)]
  rw [if_pos (by rw [List.all_eq_true]; exact natReprL_all_digits n)]
  rw [foldl_natReprL]

theorem natReprL_injective : Function.Injective natReprL := by
  intro a b h
  have := parseNumL_natReprL a
  rw [h, parseNumL_natReprL b] at this
  exact (Option.some.injEq _ _ ▸ this).symm

/-- Split a character list at every occurrence of `sep`, keeping empty
fields.  Embeds Go `strings.Split(line, " ")` (single-character separator):
`Split("a  b")` is `["a","","b"]`, `Split("")` is `[""]`. -/
def splitCh (sep : Char) : List Char → List (List Char)
  | [] => [[]]
  | c :: rest =>
    if c = sep then [] :: splitCh sep rest
    else
      match splitCh sep rest with
      | [] => [[c]]
      | t :: ts => (c :: t) :: ts

/-- ASCII lower-casing of one character (embeds `strings.ToLower`; every
string it is applied to by the translator's callers of interest is ASCII). -/
def lowerChar (c : Char) : Char :=
  if 65 ≤ c.toNat ∧ c.toNat ≤ 90 then Char.ofNat (c.toNat + 32) else c

/-- ASCII upper-casing of one character (embeds `strings.ToUpper`). -/
def upperChar (c : Char) : Char :=
  if 97 ≤ c.toNat ∧ c.toNat ≤ 122 then Char.ofNat (c.toNat - 32) else c

def toLowerS (s : String) : String := String.mk (s.data.map lowerChar)

def toUpperS (s : String) : String := String.mk (s.data.map upperChar)

/-- Go `math.MaxInt64`, the upper bound `strconv.Atoi` enforces. -/
def int64Max : Nat := 9223372036854775807

/-- Embedding of Go `strconv.Atoi`: optional single sign, one or more decimal
digits, and a 64-bit signed range check (Go reports out-of-range input as an
error). -/
def atoiL (cs : List Char) : Option Int :=
  match cs with
  | [] => none
  | c :: rest =>
    if c = '-' then
      match parseNumL rest with
      | some n => if n ≤ int64Max + 1 then some (-(n : Int)) else none
      | none => none
    else if c = '+' then
      match parseNumL rest with
      | some n => if n ≤ int64Max then some (n : Int) else none
      | none => none
    else
      match parseNumL (c :: rest) with
      | some n => if n ≤ int64Max then some (n : Int) else none
      | none => none

/-- Does `needle` occur as a contiguous substring of `hay`?
Embeds Go `strings.Contains`. -/
def hasSubstr (hay needle : List Char) : Bool :=
  match hay with
  | [] => needle.isEmpty
  | _ :: rest => needle.isPrefixOf hay || hasSubstr rest needle

/-! ## Command model (Go `CommandType`, `SegmentType`, `ALType`) -/

/-- Go `CommandType`; `ret` stands for Go's `CommandTypeReturn` (`return` is
reserved in Lean). -/
inductive CommandType where
  | arithmetic | push | pop | label | goto | ifGoto | function | ret | call
deriving DecidableEq, Repr

/-- Go `CommandType.String()`. -/
def CommandType.toStr : CommandType → String
  | .arithmetic => "arithmetic"
  | .push => "push"
  | .pop => "pop"
  | .label => "label"
  | .goto => "goto"
  | .ifGoto => "if-goto"
  | .function => "function"
  | .ret => "return"
  | .call => "call"

/-- Go `SegmentType`; `lcl`/`arg`/`thisSeg`/`thatSeg` stand for Go's
`SegmentTypeLocal`/`Argument`/`This`/`That` (`local` and `this` are reserved
words in Lean). -/
inductive SegmentType where
  | constant | lcl | arg | thisSeg | thatSeg | static | temp | pointer
deriving DecidableEq, Repr

/-- Go `SegmentType.String()`. -/
def SegmentType.toStr : SegmentType → String
  | .constant => "constant"
  | .lcl => "local"
  | .arg => "argument"
  | .thisSeg => "this"
  | .thatSeg => "that"
  | .static => "static"
  | .temp => "temp"
  | .pointer => "pointer"

/-- Go `SegmentType.ID()`: the Hack register name backing the segment. -/
def SegmentType.ID : SegmentType → String
  | .constant => ""
  | .lcl => "LCL"
  | .arg => "ARG"
  | .thisSeg => "THIS"
  | .thatSeg => "THAT"
  | .static => ""
  | .temp => ""
  | .pointer => ""

/-- Go `ALType` (arithmetic/logical operator kinds). -/
inductive ALType where
  | add | sub | neg | eq | gt | lt | and | or | not
deriving DecidableEq, Repr

/-- Go `ALType.String()`. -/
def ALType.toStr : ALType → String
  | .add => "add"
  | .sub => "sub"
  | .neg => "neg"
  | .eq => "eq"
  | .gt => "gt"
  | .lt => "lt"
  | .and => "and"
  | .or => "or"
  | .not => "not"

/-- Result of a Go call that can fail: `ok`/`err` mirror Go's
`(value, error)` convention, `panics` mirrors a Go runtime panic (the
program crashes instead of returning an error value). -/
inductive GoResult (α : Type) where
  | ok (val : α)
  | err (msg : String)
  | panics (msg : String)
deriving DecidableEq, Repr

/-- Go `Instruction` struct (same fields, same order).  `Arg2Val` is Go
`int`, embedded as `Int`; `Index` is only ever assigned the (non-negative)
command position, embedded as `Nat`. -/
structure Instruction where
  FileName : String
  Line : String
  CommandType : CommandType
  Arg1 : String
  SegmentType : SegmentType
  Arg2 : String
  Arg2Val : Int
  ALType : ALType
  Index : Nat
deriving DecidableEq, Repr

/-! ## Parser (Go `parseInstruction`, part_001:397-523) -/

def validAL : List String := ["add", "sub", "neg", "eq", "gt", "lt", "and", "or", "not"]

/-- The arithmetic-operator if-chain (part_001:406-426); Go initializes
`al := ALTypeAdd`, so an unmatched string falls back to `add`. -/
def alOf (rawAl : String) : ALType :=
  if rawAl = "add" then .add
  else if rawAl = "sub" then .sub
  else if rawAl = "neg" then .neg
  else if rawAl = "eq" then .eq
  else if rawAl = "gt" then .gt
  else if rawAl = "lt" then .lt
  else if rawAl = "and" then .and
  else if rawAl = "or" then .or
  else if rawAl = "not" then .not
  else .add

/-- The command-type if-chain (part_001:438-458); `none` is Go's
`invalid command type` error arm. -/
def ctOf (rawCt : String) : Option CommandType :=
  if rawCt = "pop" then some .pop
  else if rawCt = "push" then some .push
  else if rawCt = "label" then some .label
  else if rawCt = "goto" then some .goto
  else if rawCt = "if-goto" then some .ifGoto
  else if rawCt = "function" then some .function
  else if rawCt = "return" then some .ret
  else if rawCt = "call" then some .call
  else none

/-- The segment-type if-chain (part_001:464-484); `none` is Go's
`invalid arg1 segment type` error arm. -/
def stOf (rawSt : String) : Option SegmentType :=
  if rawSt = "constant" then some .constant
  else if rawSt = "local" then some .lcl
  else if rawSt = "argument" then some .arg
  else if rawSt = "this" then some .thisSeg
  else if rawSt = "that" then some .thatSeg
  else if rawSt = "static" then some .static
  else if rawSt = "temp" then some .temp
  else if rawSt = "pointer" then some .pointer
  else none

/-- arg1/arg2 phases of `parseInstruction` (part_001:460-522) for a
non-arithmetic command `ct` whose raw tokens are `parts`.  A `panics` result
models the unguarded `parts[1]` access: Go indexes `parts[1]` without a
length check, so a 1-token `push`/`pop`/`label`/... line crashes. -/
def parseArgs (line : String) (parts : List String) (p0 : String)
    (ct : CommandType) : GoResult Instruction :=
  let arg1Res : GoResult (String × SegmentType) :=
    if ct = .push ∨ ct = .pop then
      match parts.get? 1 with
      | none => .panics "runtime error: index out of range"
      | some p1 =>
        match stOf (toLowerS p1) with
        | none => .err ("invalid arg1 segment type: " ++ p1)
        | some st => .ok (toLowerS p1, st)
    else if ct = .label ∨ ct = .goto ∨ ct = .ifGoto ∨ ct = .function ∨ ct = .call then
      match parts.get? 1 with
      | none => .panics "runtime error: index out of range"
      | some p1 => .ok (p1, .constant)
    else if ct = .ret then
      if 1 < parts.length then .err "invalid arg1 return, no argument expected"
      else .ok ("", .constant)
    else .err ("invalid command type: " ++ p0)
  match arg1Res with
  | .panics m => .panics m
  | .err m => .err m
  | .ok (arg1, st) =>
    if ct = .push ∨ ct = .pop ∨ ct = .function ∨ ct = .call then
      match parts.get? 2 with
      | none => .err "invalid arg2 value: "
      | some p2 =>
        if p2.data = [] then
          .ok { FileName := "", Line := line, CommandType := ct, Arg1 := arg1,
                SegmentType := st, Arg2 := p2, Arg2Val := 0, ALType := .add,
                Index := 0 }
        else
          match atoiL p2.data with
          | none => .err ("invalid arg2 value: " ++ p2)
          | some v =>
            .ok { FileName := "", Line := line, CommandType := ct, Arg1 := arg1,
                  SegmentType := st, Arg2 := p2, Arg2Val := v, ALType := .add,
                  Index := 0 }
    else
      .ok { FileName := "", Line := line, CommandType := ct, Arg1 := arg1,
            SegmentType := st, Arg2 := "", Arg2Val := 0, ALType := .add,
            Index := 0 }

/-- Core of Go `parseInstruction` (part_001:397-523).  Go's `index` and
`fileName` parameters never influence the control flow or the error
messages — they are only copied into the returned struct — so the core is a
function of the line alone; `parseInstruction` adds the two fields. -/
def parseCore (line : String) : GoResult Instruction :=
  let parts : List String := (splitCh ' ' line.data).map String.mk
  let pl := parts.length
  if pl = 0 ∨ 3 < pl then .err ("invalid instruction length: " ++ natReprS pl)
  else
    match parts with
    | [] => .err ("invalid instruction length: " ++ natReprS pl)
    | p0 :: _ =>
      if pl = 1 ∧ p0 ∈ validAL then
        .ok { FileName := "", Line := line, CommandType := .arithmetic,
              Arg1 := p0, SegmentType := .constant, Arg2 := "", Arg2Val := 0,
              ALType := alOf p0, Index := 0 }
      else
        match ctOf (toLowerS p0) with
        | none => .err ("invalid command type: " ++ p0)
        | some ct => parseArgs line parts p0 ct

/-- Go `parseInstruction(index, fileName, line)`.  The arithmetic branch's
struct literal stores `Index: index`; the other branch omits `Index`, so Go
zero-initializes it.  Both store `FileName: fileName`. -/
def parseInstruction (index : Nat) (fileName : String) (line : String) :
    GoResult Instruction :=
  match parseCore line with
  | .ok i =>
    .ok { i with FileName := fileName,
                 Index := if i.CommandType = .arithmetic then index else 0 }
  | .err m => .err m
  | .panics m => .panics m

/-! ## Hack machine semantics for the generated straight-line code

The generator emits Hack assembly text.  To settle the semantic claims
(stack-pointer effects of push/pop, the call/return frame protocol), the
emitted lines are decoded into a small instruction type and executed on a
machine state with registers `A`, `D` and a memory `mem : Int → Int`
(`SP`,`LCL`,`ARG`,`THIS`,`THAT`,`R13`,`R14` are RAM cells 0-4, 13, 14, as on
the Hack platform).  All claims settled here execute straight-line sequences
only, so jumps are modeled as no-ops: "the state immediately after the jump"
is the state in which the jump instruction executes. -/

/-- The Hack instructions the generator emits.  `adr cs` is `@xxx` with the
raw text after `@`; comments and label declarations are no-ops; `cjmp` is a
conditional jump (`D;JEQ` etc.), never executed by the claims below. -/
inductive HInstr where
  | com | lbl (cs : List Char) | adr (cs : List Char)
  | dA | dM | dM1 | dMsubD | dAsubD | dDaddA | dDaddM
  | aM | aA1 | aM1 | aDaddM | aDaddA | aDsubA
  | mD | mM1 | mDaddM | mMsubD | mAnd | mOr | mDsubM | m0 | mNeg1 | mNot
  | amInc | amDec | admDec
  | jmp | cjmp | unk
deriving DecidableEq, Repr

/-- Decode one C-instruction mnemonic. -/
def decodeC (s : String) : HInstr :=
  if s = "D=A" then .dA
  else if s = "D=M" then .dM
  else if s = "D=M+1" then .dM1
  else if s = "D=M-D" then .dMsubD
  else if s = "D=A-D" then .dAsubD
  else if s = "D=D+A" then .dDaddA
  else if s = "D=D+M" then .dDaddM
  else if s = "A=M" then .aM
  else if s = "A=A-1" then .aA1
  else if s = "A=M-1" then .aM1
  else if s = "A=D+M" then .aDaddM
  else if s = "A=D+A" then .aDaddA
  else if s = "A=D-A" then .aDsubA
  else if s = "M=D" then .mD
  else if s = "M=M+1" then .mM1
  else if s = "M=D+M" then .mDaddM
  else if s = "M=M-D" then .mMsubD
  else if s = "M=D&M" then .mAnd
  else if s = "M=D|M" then .mOr
  else if s = "M=D-M" then .mDsubM
  else if s = "M=0" then .m0
  else if s = "M=-1" then .mNeg1
  else if s = "M=!M" then .mNot
  else if s = "AM=M+1" then .amInc
  else if s = "AM=M-1" then .amDec
  else if s = "ADM=M-1" then .admDec
  else if s = "0;JMP" then .jmp
  else if s = "D;JEQ" ∨ s = "D;JGT" ∨ s = "D;JLT" ∨ s = "D;JNE" then .cjmp
  else .unk

/-- Decode one emitted text line. -/
def decodeLine (s : String) : HInstr :=
  match s.data with
  | '/' :: _ => .com
  | '(' :: r => .lbl r
  | '@' :: r => .adr r
  | _ => decodeC s

/-- Hack machine state. -/
structure Mach where
  A : Int
  D : Int
  mem : Int → Int

/-- Pointwise function update. -/
def upd (f : Int → Int) (a v : Int) : Int → Int :=
  fun x => if x = a then v else f x

@[simp] theorem upd_same (f : Int → Int) (a v : Int) : upd f a v a = v := by
  simp [upd]

theorem upd_other (f : Int → Int) (a v x : Int) (h : x ≠ a) :
    upd f a v x = f x := by
  simp [upd, h]

/-- Address denoted by the text after `@`: a digit string is a constant,
`SP`/`LCL`/`ARG`/`THIS`/`THAT`/`R13`/`R14` are the fixed Hack RAM cells, and
any other symbol (jump labels, static variables) resolves through the
assembler's symbol table `lab`. -/
def symAddr (lab : List Char → Int) (cs : List Char) : Int :=
  if cs = ['S', 'P'] then 0
  else if cs = ['L', 'C', 'L'] then 1
  else if cs = ['A', 'R', 'G'] then 2
  else if cs = ['T', 'H', 'I', 'S'] then 3
  else if cs = ['T', 'H', 'A', 'T'] then 4
  else if cs = ['R', '1', '3'] then 13
  else if cs = ['R', '1', '4'] then 14
  else lab cs

def resolveAt (lab : List Char → Int) (cs : List Char) : Int :=
  match parseNumL cs with
  | some n => (n : Int)
  | none => symAddr lab cs

theorem resolveAt_natReprL (lab : List Char → Int) (n : Nat) :
    resolveAt lab (natReprL n) = (n : Int) := by
  simp [resolveAt, parseNumL_natReprL]

/-- One instruction's effect on the machine state.  Unconditional jumps do
not modify `A`/`D`/memory; conditional jumps never occur in the sequences
executed below. -/
def stepI (lab : List Char → Int) (m : Mach) : HInstr → Mach
  | .com => m
  | .lbl _ => m
  | .adr cs => { m with A := resolveAt lab cs }
  | .dA => { m with D := m.A }
  | .dM => { m with D := m.mem m.A }
  | .dM1 => { m with D := m.mem m.A + 1 }
  | .dMsubD => { m with D := m.mem m.A - m.D }
  | .dAsubD => { m with D := m.A - m.D }
  | .dDaddA => { m with D := m.D + m.A }
  | .dDaddM => { m with D := m.D + m.mem m.A }
  | .aM => { m with A := m.mem m.A }
  | .aA1 => { m with A := m.A - 1 }
  | .aM1 => { m with A := m.mem m.A - 1 }
  | .aDaddM => { m with A := m.D + m.mem m.A }
  | .aDaddA => { m with A := m.D + m.A }
  | .aDsubA => { m with A := m.D - m.A }
  | .mD => { m with mem := upd m.mem m.A m.D }
  | .mM1 => { m with mem := upd m.mem m.A (m.mem m.A + 1) }
  | .mDaddM => { m with mem := upd m.mem m.A (m.D + m.mem m.A) }
  | .mMsubD => { m with mem := upd m.mem m.A (m.mem m.A - m.D) }
  | .mAnd => { m with mem := upd m.mem m.A (Int.land m.D (m.mem m.A)) }
  | .mOr => { m with mem := upd m.mem m.A (Int.lor m.D (m.mem m.A)) }
  | .mDsubM => { m with mem := upd m.mem m.A (m.D - m.mem m.A) }
  | .m0 => { m with mem := upd m.mem m.A 0 }
  | .mNeg1 => { m with mem := upd m.mem m.A (-1) }
  | .mNot => { m with mem := upd m.mem m.A (Int.not (m.mem m.A)) }
  | .amInc => { m with A := m.mem m.A + 1, mem := upd m.mem m.A (m.mem m.A + 1) }
  | .amDec => { m with A := m.mem m.A - 1, mem := upd m.mem m.A (m.mem m.A - 1) }
  | .admDec =>
    { m with A := m.mem m.A - 1, D := m.mem m.A - 1,
             mem := upd m.mem m.A (m.mem m.A - 1) }
  | .jmp => m
  | .cjmp => m
  | .unk => m

/-- One text line's effect. -/
def stepL (lab : List Char → Int) (m : Mach) (s : String) : Mach :=
  stepI lab m (decodeLine s)

/-- Execute a list of emitted text lines in order. -/
def run (lab : List Char → Int) (m : Mach) (ls : List String) : Mach :=
  List.foldl (stepL lab) m ls

@[simp] theorem run_nil (lab : List Char → Int) (m : Mach) : run lab m [] = m := rfl

@[simp] theorem run_cons (lab : List Char → Int) (m : Mach) (s : String)
    (ls : List String) : run lab m (s :: ls) = run lab (stepL lab m s) ls := rfl

theorem run_append (lab : List Char → Int) (m : Mach) (l1 l2 : List String) :
    run lab m (l1 ++ l2) = run lab (run lab m l1) l2 := by
  simp [run, List.foldl_append]

/-- The memory addresses one instruction reads or writes through `M`. -/
def accI (m : Mach) : HInstr → List Int
  | .dM | .dM1 | .dMsubD | .dDaddM | .aM | .aM1 | .aDaddM
  | .mD | .mM1 | .mDaddM | .mMsubD | .mAnd | .mOr | .mDsubM | .m0 | .mNeg1
  | .mNot | .amInc | .amDec | .admDec => [m.A]
  | _ => []

/-- All memory addresses a line sequence reads or writes, in order. -/
def accesses (lab : List Char → Int) (m : Mach) : List String → List Int
  | [] => []
  | s :: ls => accI m (decodeLine s) ++ accesses lab (stepL lab m s) ls

@[simp] theorem accesses_nil (lab : List Char → Int) (m : Mach) :
    accesses lab m [] = [] := rfl

@[simp] theorem accesses_cons (lab : List Char → Int) (m : Mach) (s : String)
    (ls : List String) :
    accesses lab m (s :: ls) =
      accI m (decodeLine s) ++ accesses lab (stepL lab m s) ls := rfl

/-! ### Step lemmas for the emitted line vocabulary

One equation per concrete line the generator emits, plus generic equations
for `@`-lines, comments and label declarations built by string append.
Each is definitional (`rfl`); together they let symbolic runs of emitted
sequences be computed by `simp`. -/

theorem decodeLine_comm2 (s : String) : decodeLine ("// " ++ s) = .com := by
  unfold decodeLine
  rw [show ("// " ++ s).data = '/' :: '/' :: ' ' :: s.data from by
    rw [String.data_append]; rfl]
  rfl

theorem decodeLine_comm3 (s : String) : decodeLine ("/// " ++ s) = .com := by
  unfold decodeLine
  rw [show ("/// " ++ s).data = '/' :: '/' :: '/' :: ' ' :: s.data from by
    rw [String.data_append]; rfl]
  rfl

theorem decodeLine_at (s : String) : decodeLine ("@" ++ s) = .adr s.data := by
  unfold decodeLine
  rw [show ("@" ++ s).data = '@' :: s.data from by rw [String.data_append]; rfl]
  rfl

theorem decodeLine_paren (s : String) : decodeLine ("(" ++ s) = .lbl s.data := by
  unfold decodeLine
  rw [show ("(" ++ s).data = '(' :: s.data from by rw [String.data_append]; rfl]
  rfl


theorem decodeLine_commCallRet (s : String) :
    decodeLine ("/// call ; working with return address " ++ s) = .com := by
  unfold decodeLine
  rw [show ("/// call ; working with return address " ++ s).data =
      '/' :: ("// call ; working with return address ".data ++ s.data) from by
    rw [String.data_append]; rfl]
  rfl

theorem decodeLine_commCallGoto (s : String) :
    decodeLine ("/// call ; goto function " ++ s) = .com := by
  unfold decodeLine
  rw [show ("/// call ; goto function " ++ s).data =
      '/' :: ("// call ; goto function ".data ++ s.data) from by
    rw [String.data_append]; rfl]
  rfl

theorem decodeLine_commRetSeg (s t u : String) :
    decodeLine ("/// " ++ s ++ t ++ u) = .com := by
  unfold decodeLine
  rw [show ("/// " ++ s ++ t ++ u).data =
      '/' :: '/' :: '/' :: ' ' :: (s.data ++ t.data ++ u.data) from by
    simp [String.data_append]]
  rfl

theorem decodeLine_parenApp (s t : String) :
    decodeLine ("(" ++ s ++ t) = .lbl (s.data ++ t.data) := by
  unfold decodeLine
  rw [show ("(" ++ s ++ t).data = '(' :: (s.data ++ t.data) from by
    simp [String.data_append]]
  rfl

section StepLemmas
variable (lab : List Char → Int) (m : Mach) (s t u : String)

@[simp] theorem step_commCallRet :
    stepL lab m ("/// call ; working with return address " ++ s) = m := by
  simp [stepL, decodeLine_commCallRet, stepI]
@[simp] theorem step_commCallGoto :
    stepL lab m ("/// call ; goto function " ++ s) = m := by
  simp [stepL, decodeLine_commCallGoto, stepI]
@[simp] theorem step_commRetSeg :
    stepL lab m ("/// " ++ s ++ t ++ u) = m := by
  simp [stepL, decodeLine_commRetSeg, stepI]
@[simp] theorem step_parenApp : stepL lab m ("(" ++ s ++ t) = m := by
  simp [stepL, decodeLine_parenApp, stepI]
@[simp] theorem step_commCallLCL :
    stepL lab m "/// call ; working with LCL" = m := rfl
@[simp] theorem step_commCallARG :
    stepL lab m "/// call ; working with ARG" = m := rfl
@[simp] theorem step_commCallTHIS :
    stepL lab m "/// call ; working with THIS" = m := rfl
@[simp] theorem step_commCallTHAT :
    stepL lab m "/// call ; working with THAT" = m := rfl
@[simp] theorem step_commCallArgEq :
    stepL lab m "/// call ; ARG = SP - 5 - nArgs" = m := rfl
@[simp] theorem step_commCallLclEq :
    stepL lab m "/// call ; LCL = SP" = m := rfl
@[simp] theorem step_commRetFrame :
    stepL lab m "/// return ; endFrame = LCL" = m := rfl
@[simp] theorem step_commRetAddr :
    stepL lab m "/// return ; retAddr = D = RAM[endFrame - 5]" = m := rfl
@[simp] theorem step_commRetPop :
    stepL lab m "/// return ; RAM[ARG] = pop() = RAM[SP-1]" = m := rfl
@[simp] theorem step_commRetSp :
    stepL lab m "/// return ; SP = ARG + 1" = m := rfl
@[simp] theorem step_commRetGoto :
    stepL lab m "/// return ; goto caller" = m := rfl
@[simp] theorem step_commBoot : stepL lab m "// Bootstrap code" = m := rfl
@[simp] theorem step_commBootCall : stepL lab m "/// call Sys.init 0" = m := rfl

@[simp] theorem acc_commCallRet :
    accI m (decodeLine ("/// call ; working with return address " ++ s)) = [] := by
  simp [decodeLine_commCallRet, accI]
@[simp] theorem acc_commCallGoto :
    accI m (decodeLine ("/// call ; goto function " ++ s)) = [] := by
  simp [decodeLine_commCallGoto, accI]
@[simp] theorem acc_commRetSeg :
    accI m (decodeLine ("/// " ++ s ++ t ++ u)) = [] := by
  simp [decodeLine_commRetSeg, accI]
@[simp] theorem acc_parenApp : accI m (decodeLine ("(" ++ s ++ t)) = [] := by
  simp [decodeLine_parenApp, accI]
@[simp] theorem acc_commCallLCL :
    accI m (decodeLine "/// call ; working with LCL") = [] := rfl
@[simp] theorem acc_commCallARG :
    accI m (decodeLine "/// call ; working with ARG") = [] := rfl
@[simp] theorem acc_commCallTHIS :
    accI m (decodeLine "/// call ; working with THIS") = [] := rfl
@[simp] theorem acc_commCallTHAT :
    accI m (decodeLine "/// call ; working with THAT") = [] := rfl
@[simp] theorem acc_commCallArgEq :
    accI m (decodeLine "/// call ; ARG = SP - 5 - nArgs") = [] := rfl
@[simp] theorem acc_commCallLclEq :
    accI m (decodeLine "/// call ; LCL = SP") = [] := rfl
@[simp] theorem acc_commRetFrame :
    accI m (decodeLine "/// return ; endFrame = LCL") = [] := rfl
@[simp] theorem acc_commRetAddr :
    accI m (decodeLine "/// return ; retAddr = D = RAM[endFrame - 5]") = [] := rfl
@[simp] theorem acc_commRetPop :
    accI m (decodeLine "/// return ; RAM[ARG] = pop() = RAM[SP-1]") = [] := rfl
@[simp] theorem acc_commRetSp :
    accI m (decodeLine "/// return ; SP = ARG + 1") = [] := rfl
@[simp] theorem acc_commRetGoto :
    accI m (decodeLine "/// return ; goto caller") = [] := rfl

@[simp] theorem step_comm2 : stepL lab m ("// " ++ s) = m := by
  simp [stepL, decodeLine_comm2, stepI]
@[simp] theorem step_comm3 : stepL lab m ("/// " ++ s) = m := by
  simp [stepL, decodeLine_comm3, stepI]
@[simp] theorem step_paren : stepL lab m ("(" ++ s) = m := by
  simp [stepL, decodeLine_paren, stepI]
@[simp] theorem step_at : stepL lab m ("@" ++ s) = { m with A := resolveAt lab s.data } := by
  simp [stepL, decodeLine_at, stepI]
@[simp] theorem step_atSP : stepL lab m "@SP" = { m with A := 0 } := rfl
@[simp] theorem step_atLCL : stepL lab m "@LCL" = { m with A := 1 } := rfl
@[simp] theorem step_atARG : stepL lab m "@ARG" = { m with A := 2 } := rfl
@[simp] theorem step_atTHIS : stepL lab m "@THIS" = { m with A := 3 } := rfl
@[simp] theorem step_atTHAT : stepL lab m "@THAT" = { m with A := 4 } := rfl
@[simp] theorem step_atR13 : stepL lab m "@R13" = { m with A := 13 } := rfl
@[simp] theorem step_atR14 : stepL lab m "@R14" = { m with A := 14 } := rfl
@[simp] theorem step_at0 : stepL lab m "@0" = { m with A := 0 } := rfl
@[simp] theorem step_at5 : stepL lab m "@5" = { m with A := 5 } := rfl
@[simp] theorem step_at256 : stepL lab m "@256" = { m with A := 256 } := rfl
@[simp] theorem step_dA : stepL lab m "D=A" = { m with D := m.A } := rfl
@[simp] theorem step_dM : stepL lab m "D=M" = { m with D := m.mem m.A } := rfl
@[simp] theorem step_dM1 : stepL lab m "D=M+1" = { m with D := m.mem m.A + 1 } := rfl
@[simp] theorem step_dAsubD : stepL lab m "D=A-D" = { m with D := m.A - m.D } := rfl
@[simp] theorem step_aM : stepL lab m "A=M" = { m with A := m.mem m.A } := rfl
@[simp] theorem step_aA1 : stepL lab m "A=A-1" = { m with A := m.A - 1 } := rfl
@[simp] theorem step_aM1 : stepL lab m "A=M-1" = { m with A := m.mem m.A - 1 } := rfl
@[simp] theorem step_aDaddM : stepL lab m "A=D+M" = { m with A := m.D + m.mem m.A } := rfl
@[simp] theorem step_aDaddA : stepL lab m "A=D+A" = { m with A := m.D + m.A } := rfl
@[simp] theorem step_aDsubA : stepL lab m "A=D-A" = { m with A := m.D - m.A } := rfl
@[simp] theorem step_dDaddA : stepL lab m "D=D+A" = { m with D := m.D + m.A } := rfl
@[simp] theorem step_dDaddM : stepL lab m "D=D+M" = { m with D := m.D + m.mem m.A } := rfl
@[simp] theorem step_mD : stepL lab m "M=D" =
    { m with mem := upd m.mem m.A m.D } := rfl
@[simp] theorem step_mM1 : stepL lab m "M=M+1" =
    { m with mem := upd m.mem m.A (m.mem m.A + 1) } := rfl
@[simp] theorem step_amInc : stepL lab m "AM=M+1" =
    { m with A := m.mem m.A + 1, mem := upd m.mem m.A (m.mem m.A + 1) } := rfl
@[simp] theorem step_amDec : stepL lab m "AM=M-1" =
    { m with A := m.mem m.A - 1, mem := upd m.mem m.A (m.mem m.A - 1) } := rfl
@[simp] theorem step_admDec : stepL lab m "ADM=M-1" =
    { m with A := m.mem m.A - 1, D := m.mem m.A - 1,
             mem := upd m.mem m.A (m.mem m.A - 1) } := rfl
@[simp] theorem step_jmp : stepL lab m "0;JMP" = m := rfl

@[simp] theorem acc_comm2 : accI m (decodeLine ("// " ++ s)) = [] := by
  simp [decodeLine_comm2, accI]
@[simp] theorem acc_comm3 : accI m (decodeLine ("/// " ++ s)) = [] := by
  simp [decodeLine_comm3, accI]
@[simp] theorem acc_paren : accI m (decodeLine ("(" ++ s)) = [] := by
  simp [decodeLine_paren, accI]
@[simp] theorem acc_at : accI m (decodeLine ("@" ++ s)) = [] := by
  simp [decodeLine_at, accI]
@[simp] theorem acc_atSP : accI m (decodeLine "@SP") = [] := rfl
@[simp] theorem acc_atLCL : accI m (decodeLine "@LCL") = [] := rfl
@[simp] theorem acc_atARG : accI m (decodeLine "@ARG") = [] := rfl
@[simp] theorem acc_atTHIS : accI m (decodeLine "@THIS") = [] := rfl
@[simp] theorem acc_atTHAT : accI m (decodeLine "@THAT") = [] := rfl
@[simp] theorem acc_atR13 : accI m (decodeLine "@R13") = [] := rfl
@[simp] theorem acc_atR14 : accI m (decodeLine "@R14") = [] := rfl
@[simp] theorem acc_at0 : accI m (decodeLine "@0") = [] := rfl
@[simp] theorem acc_at5 : accI m (decodeLine "@5") = [] := rfl
@[simp] theorem acc_at256 : accI m (decodeLine "@256") = [] := rfl
@[simp] theorem acc_dA : accI m (decodeLine "D=A") = [] := rfl
@[simp] theorem acc_dM : accI m (decodeLine "D=M") = [m.A] := rfl
@[simp] theorem acc_dM1 : accI m (decodeLine "D=M+1") = [m.A] := rfl
@[simp] theorem acc_dAsubD : accI m (decodeLine "D=A-D") = [] := rfl
@[simp] theorem acc_dDaddA : accI m (decodeLine "D=D+A") = [] := rfl
@[simp] theorem acc_dDaddM : accI m (decodeLine "D=D+M") = [m.A] := rfl
@[simp] theorem acc_aM : accI m (decodeLine "A=M") = [m.A] := rfl
@[simp] theorem acc_aA1 : accI m (decodeLine "A=A-1") = [] := rfl
@[simp] theorem acc_aM1 : accI m (decodeLine "A=M-1") = [m.A] := rfl
@[simp] theorem acc_aDaddM : accI m (decodeLine "A=D+M") = [m.A] := rfl
@[simp] theorem acc_aDaddA : accI m (decodeLine "A=D+A") = [] := rfl
@[simp] theorem acc_aDsubA : accI m (decodeLine "A=D-A") = [] := rfl
@[simp] theorem acc_mD : accI m (decodeLine "M=D") = [m.A] := rfl
@[simp] theorem acc_mM1 : accI m (decodeLine "M=M+1") = [m.A] := rfl
@[simp] theorem acc_amInc : accI m (decodeLine "AM=M+1") = [m.A] := rfl
@[simp] theorem acc_amDec : accI m (decodeLine "AM=M-1") = [m.A] := rfl
@[simp] theorem acc_admDec : accI m (decodeLine "ADM=M-1") = [m.A] := rfl
@[simp] theorem acc_jmp : accI m (decodeLine "0;JMP") = [] := rfl

end StepLemmas

/-! ## Code generator (part_001:525-912)

Go threads the generator through two package-level variables
(`currentFunctionName`, initially `"LABEL"`, and `retIndex`, initially `1`);
they become the explicit state `GenSt`. -/

structure GenSt where
  currentFunctionName : String
  retIndex : Nat
deriving DecidableEq, Repr

/-- The Go package-level initial values (part_001:14-18). -/
def initialGenSt : GenSt := { currentFunctionName := "LABEL", retIndex := 1 }

/-- Go `genConstantPUSH` (the receiver is unused; Go passes the value
explicitly, also from `genFunction`). -/
def genConstantPUSH (val : Int) : List String :=
  ["@" ++ intReprS val, "D=A", "@SP", "AM=M+1", "A=A-1", "M=D"]

/-- Go `genSegmentPUSH` (local/argument/this/that). -/
def genSegmentPUSH (sgt : SegmentType) (val : Int) : List String :=
  ["@" ++ intReprS val, "D=A", "@" ++ sgt.ID, "A=D+M", "D=M",
   "@SP", "AM=M+1", "A=A-1", "M=D"]

/-- Go `genStaticPUSH`: the static cell is the assembler symbol
`<module>.<offset>`. -/
def Instruction.genStaticPUSH (i : Instruction) : List String :=
  ["@" ++ (i.FileName ++ ("." ++ intReprS i.Arg2Val)), "D=M",
   "@SP", "AM=M+1", "A=A-1", "M=D"]

/-- Go `genTempPUSH`: fixed base 5 plus offset. -/
def Instruction.genTempPUSH (i : Instruction) : List String :=
  ["@" ++ intReprS i.Arg2Val, "D=A", "@5", "A=D+A", "D=M",
   "@SP", "AM=M+1", "A=A-1", "M=D"]

/-- Go `genPointerPUSH`: offset 0 reads THIS, any other offset reads THAT. -/
def Instruction.genPointerPUSH (i : Instruction) : List String :=
  (if i.Arg2Val = 0 then ["@THIS"] else ["@THAT"]) ++
  ["D=M", "@SP", "A=M", "M=D", "@SP", "M=M+1"]

/-- Go `genConstantPOP`: pop of `constant` just drops the top of stack. -/
def genConstantPOP : List String :=
  ["@SP", "AM=M-1", "D=M"]

/-- Go `genSegmentPOP` (local/argument/this/that), via scratch register R13. -/
def genSegmentPOP (sgt : SegmentType) (val : Int) : List String :=
  ["@" ++ intReprS val, "D=A", "@" ++ sgt.ID, "D=D+M", "@R13", "M=D",
   "@SP", "AM=M-1", "D=M", "@R13", "A=M", "M=D"]

/-- Go `genStaticPOP`. -/
def Instruction.genStaticPOP (i : Instruction) : List String :=
  ["@SP", "AM=M-1", "D=M",
   "@" ++ (i.FileName ++ ("." ++ intReprS i.Arg2Val)), "M=D"]

/-- Go `genTempPOP`. -/
def Instruction.genTempPOP (i : Instruction) : List String :=
  ["@" ++ intReprS i.Arg2Val, "D=A", "@5", "D=D+A", "@R13", "M=D",
   "@SP", "AM=M-1", "D=M", "@R13", "A=M", "M=D"]

/-- Go `genPointerPOP`: offset 0 writes THIS, any other offset writes THAT. -/
def Instruction.genPointerPOP (i : Instruction) : List String :=
  ["@SP", "AM=M-1", "D=M"] ++
  (if i.Arg2Val = 0 then ["@THIS"] else ["@THAT"]) ++ ["M=D"]

/-- Go `getLogicalLabel`: `fmt.Sprintf("(%s.%d)", prefix, i.Index)`,
upper-cased. -/
def Instruction.getLogicalLabel (i : Instruction) (p : String) : String :=
  toUpperS ("(" ++ p ++ "." ++ natReprS i.Index ++ ")")

/-- Go `getLogicalARegister`: `fmt.Sprintf("@%s.%d", prefix, i.Index)`,
upper-cased. -/
def Instruction.getLogicalARegister (i : Instruction) (p : String) : String :=
  toUpperS ("@" ++ p ++ "." ++ natReprS i.Index)

/-- The shared eq/gt/lt arm of Go `genArithmetic` (part_001:621-647);
`id` is `i.ALType.String()` and `jump` the matching conditional jump. -/
def Instruction.genCompare (i : Instruction) (id jump : String) : List String :=
  ["@SP", "AM=M-1", "D=M", "A=A-1", "D=M-D",
   i.getLogicalARegister (id ++ "_true"), jump,
   "@SP", "A=M-1", "M=0",
   i.getLogicalARegister (id ++ "_false"), "0;JMP",
   i.getLogicalLabel (id ++ "_true"),
   "@SP", "A=M-1", "M=-1",
   i.getLogicalLabel (id ++ "_false")]

/-- Go `genArithmetic` (part_001:594-658).  Total: every `ALType` value is
handled, so Go's `default` error arm is unreachable. -/
def Instruction.genArithmetic (i : Instruction) : List String :=
  match i.ALType with
  | .add => ["@SP", "AM=M-1", "D=M", "A=A-1", "M=D+M"]
  | .sub => ["@SP", "AM=M-1", "D=M", "A=A-1", "M=M-D"]
  | .and => ["@SP", "AM=M-1", "D=M", "A=A-1", "M=D&M"]
  | .or => ["@SP", "AM=M-1", "D=M", "A=A-1", "M=D|M"]
  | .neg => ["@0", "D=A", "@SP", "A=M-1", "M=D-M"]
  | .not => ["@SP", "A=M-1", "M=!M"]
  | .eq => i.genCompare "eq" "D;JEQ"
  | .gt => i.genCompare "gt" "D;JGT"
  | .lt => i.genCompare "lt" "D;JLT"

/-- Go `genCall` (part_001:802-853).  Reads `currentFunctionName`/`retIndex`
from `st` and returns the state with `retIndex` incremented. -/
def genCall (st : GenSt) (calleeFn : String) (calleeNArgs : Int) :
    List String × GenSt :=
  let retAddrLabel := st.currentFunctionName ++ "$ret." ++ natReprS st.retIndex
  let lines :=
    ["/// call ; working with return address " ++ retAddrLabel,
     "@" ++ retAddrLabel, "D=A", "@SP", "A=M", "M=D", "@SP", "M=M+1"] ++
    ([SegmentType.lcl, .arg, .thisSeg, .thatSeg].flatMap fun seg =>
      ["/// call ; working with " ++ seg.ID,
       "@" ++ seg.ID, "D=M", "@SP", "A=M", "M=D", "@SP", "M=M+1"]) ++
    ["/// call ; ARG = SP - 5 - nArgs",
     "@" ++ intReprS (5 + calleeNArgs), "D=A", "@SP", "A=M", "D=A-D",
     "@ARG", "M=D",
     "/// call ; LCL = SP",
     "@SP", "D=M", "@LCL", "M=D",
     "/// call ; goto function " ++ calleeFn,
     "@" ++ calleeFn, "0;JMP",
     "(" ++ retAddrLabel ++ ")"]
  (lines, { st with retIndex := st.retIndex + 1 })

/-- Go `genFunction` (part_001:856-865): entry label plus `Arg2Val`
constant-push-0 blocks (`for range` over a negative Go int runs zero
times, hence `Int.toNat`).  The `currentFunctionName := i.Arg1` mutation is
performed by `GenAsm` below. -/
def Instruction.genFunction (i : Instruction) : List String :=
  ["(" ++ i.Arg1 ++ ")"] ++
  (List.replicate i.Arg2Val.toNat (genConstantPUSH 0)).flatten

/-- Go `genReturn` (part_001:868-912). -/
def Instruction.genReturn (i : Instruction) : List String :=
  ["/// return ; endFrame = LCL", "@LCL", "D=M", "@R13", "M=D",
   "/// return ; retAddr = D = RAM[endFrame - 5]", "@5", "A=D-A", "D=M",
   "@R14", "M=D",
   "/// return ; RAM[ARG] = pop() = RAM[SP-1]", "@SP", "A=M-1", "D=M",
   "@ARG", "A=M", "M=D",
   "/// return ; SP = ARG + 1", "@ARG", "D=M+1", "@SP", "M=D"] ++
  ([SegmentType.thatSeg, .thisSeg, .arg, .lcl].flatMap fun seg =>
    ["/// " ++ i.Line ++ " ; working with " ++ seg.toStr,
     "@R13", "ADM=M-1", "D=M", "@" ++ seg.ID, "M=D"]) ++
  ["/// return ; goto caller", "@R14", "A=M", "0;JMP"]

/-- Go `(*Instruction).GenAsm` (part_001:525-592): the echo comment line
followed by the per-command sequence.  Always `ok`: Go's trailing
`invalid or not handled command` return is unreachable because the switch
covers every `CommandType`. -/
def Instruction.GenAsm (i : Instruction) (st : GenSt) :
    GoResult (List String × GenSt) :=
  let lines := ["// " ++ i.Line]
  match i.CommandType with
  | .arithmetic => .ok (lines ++ i.genArithmetic, st)
  | .push =>
    let body :=
      match i.SegmentType with
      | .constant => genConstantPUSH i.Arg2Val
      | .static => i.genStaticPUSH
      | .temp => i.genTempPUSH
      | .pointer => i.genPointerPUSH
      | sgt => genSegmentPUSH sgt i.Arg2Val
    .ok (lines ++ body, st)
  | .pop =>
    let body :=
      match i.SegmentType with
      | .constant => genConstantPOP
      | .static => i.genStaticPOP
      | .temp => i.genTempPOP
      | .pointer => i.genPointerPOP
      | sgt => genSegmentPOP sgt i.Arg2Val
    .ok (lines ++ body, st)
  | .label => .ok (lines ++ ["(" ++ i.Arg1 ++ ")"], st)
  | .goto => .ok (lines ++ ["@" ++ i.Arg1, "0;JMP"], st)
  | .ifGoto =>
    .ok (lines ++ ["@SP", "AM=M-1", "D=M", "@" ++ i.Arg1, "D;JNE"], st)
  | .function =>
    .ok (lines ++ i.genFunction, { st with currentFunctionName := i.Arg1 })
  | .ret => .ok (lines ++ i.genReturn, st)
  | .call =>
    let (cl, st') := genCall st i.Arg1 i.Arg2Val
    .ok (lines ++ cl, st')

/-! ## Module sequencing and linking (Go `main`, part_001:113-298) -/

/-- Is `c` ASCII whitespace (embeds the character class `strings.TrimSpace`
strips; the inputs of interest are ASCII)? -/
def isSpaceB (c : Char) : Bool :=
  c = ' ' || c = '\t' || c = '\n' || c = '\r' ||
  c = Char.ofNat 11 || c = Char.ofNat 12

/-- Trim whitespace from both ends (Go `strings.TrimSpace`). -/
def trimL (cs : List Char) : List Char :=
  ((cs.dropWhile isSpaceB).reverse.dropWhile isSpaceB).reverse

def trimS (s : String) : String := String.mk (trimL s.data)

/-- Text before the first `//` marker: `strings.Split(line, "//")[0]`
(the `len(v) == 0` arm of Go `removeCommentsAndSpaces` is unreachable). -/
def beforeMarker : List Char → List Char
  | [] => []
  | c :: rest =>
    if ['/', '/'].isPrefixOf (c :: rest) then []
    else c :: beforeMarker rest

/-- Go `removeCommentsAndSpaces` (part_001:355-361). -/
def removeCommentsAndSpaces (line : String) : String :=
  String.mk (trimL (beforeMarker line.data))

/-- Go `filepath.Base`: the part after the last `/` (file names here never
end in a slash). -/
def baseNameL (cs : List Char) : List Char :=
  (cs.reverse.takeWhile fun c => ¬ c = '/').reverse

/-- Go `filepath.Ext`: the suffix starting at the final dot of the final
path element, or empty when there is no dot. -/
def extL (cs : List Char) : List Char :=
  let b := baseNameL cs
  let a := b.reverse.takeWhile fun c => ¬ c = '.'
  if a.length = b.length then [] else '.' :: a.reverse

/-- The module tag Go computes in `encodeLineFileName` (part_001:341-345):
base name without extension, spaces replaced by underscores. -/
def sanitizeModName (fileName : String) : String :=
  let b := baseNameL fileName.data
  let e := extL fileName.data
  String.mk ((b.take (b.length - e.length)).map fun c =>
    if c = ' ' then '_' else c)

/-- Go `encodeLineFileName`. -/
def encodeLineFileName (fileName line : String) : String :=
  sanitizeModName fileName ++ "#" ++ line

/-- Go `decodeLineFileName` (part_001:347-353): split on `#`; anything but
exactly two parts yields `("", "")`. -/
def decodeLineFileName (line : String) : String × String :=
  match (splitCh '#' line.data).map String.mk with
  | [p0, p1] => (p0, trimS p1)
  | _ => ("", "")

/-- An input module: the file name passed to `os.Open`, and the raw lines
of the file. -/
structure Module where
  name : String
  lines : List String
deriving DecidableEq, Repr

def sysInitNeedle : List Char :=
  ['f', 'u', 'n', 'c', 't', 'i', 'o', 'n', ' ', 'S', 'y', 's', '.', 'i',
   'n', 'i', 't', ' ', '0']

/-- The Go entry-point scan for one module (part_001:170-186): skip lines
starting with `//` or blank after trimming; otherwise test
`strings.Contains(line, "function Sys.init 0")`. -/
def containsSysInit (m : Module) : Bool :=
  m.lines.any fun l =>
    !(['/', '/'].isPrefixOf l.data || (trimL l.data).isEmpty) &&
      hasSubstr l.data sysInitNeedle

/-- Index of the first module whose scan finds the entry point (Go breaks
out of both loops at the first hit). -/
def findSysInitIdx (ms : List Module) : Option Nat :=
  ms.findIdx? containsSysInit

/-- The per-module cleanup loop (part_001:231-239 and 245-257): strip
comments and blank lines, tag each survivor with the sanitized module
name. -/
def Module.cleanedTagged (m : Module) : List String :=
  m.lines.filterMap fun raw =>
    let line := removeCommentsAndSpaces raw
    if line = "" then none
    else some (encodeLineFileName m.name line)

/-- The module order Go scans in (part_001:213-257): with several modules,
Go appends every file handle other than `fileWithSysInit` in input order,
then `fileWithSysInit`.  File handles are distinct pointers, so skipping
the one equal to `fileWithSysInit` removes exactly the element at the found
index: `eraseIdx`.  With zero or one module, the input order is kept. -/
def orderedModules (ms : List Module) (sysIdx : Option Nat) : List Module :=
  if 1 < ms.length then
    match sysIdx with
    | some i =>
      ms.eraseIdx i ++
        (match ms.get? i with
         | some m => [m]
         | none => [])
    | none => ms
  else ms

/-- The main generation loop (part_001:279-292): decode each tagged line,
parse it (the loop position is the 0-based command index), generate, and
concatenate; the first failure aborts the run. -/
def genAll (i : Nat) (st : GenSt) : List String → GoResult (List String)
  | [] => .ok []
  | l :: rest =>
    let p := decodeLineFileName l
    match parseInstruction i p.1 p.2 with
    | .panics m => .panics m
    | .err m => .err m
    | .ok inst =>
      match inst.GenAsm st with
      | .panics m => .panics m
      | .err m => .err m
      | .ok (asmLines, st') =>
        match genAll (i + 1) st' rest with
        | .ok out => .ok (asmLines ++ out)
        | e => e

/-- The fixed bootstrap prologue (part_001:266-274): initialize the stack
pointer to 256, then (see `linkModules`) a generated `call Sys.init 0`. -/
def bootstrapHeader : List String :=
  ["// Bootstrap code", "@256", "D=A", "@SP", "M=D", "/// call Sys.init 0"]

/-- Go `main`'s translation pipeline (part_001:167-298) from the opened
modules to the final `resultLines`.  The fatal `os.Exit` paths become `err`
results (no output file content is produced on them): missing `Sys.init`
with several modules (187-190), an empty cleaned program (259-262), and
parse/generation failures (279-292). -/
def linkModules (ms : List Module) : GoResult (List String) :=
  let sysIdx := findSysInitIdx ms
  if sysIdx = none ∧ 1 < ms.length then
    .err "Sys.init not found in any source file"
  else
    let instructionsLines := (orderedModules ms sysIdx).flatMap Module.cleanedTagged
    if instructionsLines = [] then .err "No source lines found"
    else
      let pre :=
        if sysIdx ≠ none then bootstrapHeader ++ (genCall initialGenSt "Sys.init" 0).1
        else []
      let st1 :=
        if sysIdx ≠ none then (genCall initialGenSt "Sys.init" 0).2
        else initialGenSt
      match genAll 0 st1 instructionsLines with
      | .ok body => .ok (pre ++ body)
      | .err m => .err m
      | .panics m => .panics m

/-! ## Helper lemmas about address resolution -/

theorem resolveAt_intReprS (lab : List Char → Int) (v : Int) (hv : 0 ≤ v) :
    resolveAt lab (intReprS v).data = v := by
  unfold intReprS intReprL
  rw [if_neg (by omega)]
  show resolveAt lab (natReprL v.natAbs) = v
  rw [resolveAt_natReprL]
  omega

theorem parseNumL_none_of_mem (cs : List Char) (c : Char) (hc : c ∈ cs)
    (hnd : isDigB c = false) : parseNumL cs = none := by
  unfold parseNumL
  rw [if_neg (by rintro rfl; simp at hc)]
  rw [if_neg]
  intro hall
  rw [List.all_eq_true] at hall
  rw [hall c hc] at hnd
  exact absurd hnd (by simp)

theorem symAddr_of_dot (lab : List Char → Int) (cs : List Char)
    (h : '.' ∈ cs) : symAddr lab cs = lab cs := by
  unfold symAddr
  rw [if_neg (by rintro rfl; simp at h), if_neg (by rintro rfl; simp at h),
    if_neg (by rintro rfl; simp at h), if_neg (by rintro rfl; simp at h),
    if_neg (by rintro rfl; simp at h), if_neg (by rintro rfl; simp at h),
    if_neg (by rintro rfl; simp at h)]

/-- A symbol containing a dot (the static cells `Module.i`) resolves through
the assembler symbol table. -/
theorem resolveAt_of_dot (lab : List Char → Int) (cs : List Char)
    (h : '.' ∈ cs) : resolveAt lab cs = lab cs := by
  unfold resolveAt
  rw [parseNumL_none_of_mem cs '.' h (by decide)]
  exact symAddr_of_dot lab cs h

/-- The address of a static cell `s.t` (as emitted by
`genStaticPUSH`/`genStaticPOP`) is its symbol-table entry: a symbol with a
dot can be neither a numeric constant nor a reserved register name. -/
theorem resolveAt_staticL (lab : List Char → Int) (s t : List Char) :
    resolveAt lab (s ++ '.' :: t) = lab (s ++ '.' :: t) := by
  apply resolveAt_of_dot
  simp

/-! ## Splitting and number-parsing lemmas for the parser claims -/

theorem splitCh_no_sep (sep : Char) (t : List Char) (h : sep ∉ t) :
    splitCh sep t = [t] := by
  induction t with
  | nil => rfl
  | cons c rest ih =>
    rw [List.mem_cons] at h
    push_neg at h
    unfold splitCh
    rw [if_neg (fun hc => h.1 hc.symm), ih h.2]

theorem splitCh_cons (sep c : Char) (rest : List Char) :
    splitCh sep (c :: rest) =
      if c = sep then [] :: splitCh sep rest
      else
        match splitCh sep rest with
        | [] => [[c]]
        | t :: ts => (c :: t) :: ts := rfl

theorem splitCh_append (sep : Char) (pre t : List Char) (h : sep ∉ pre) :
    splitCh sep (pre ++ sep :: t) = pre :: splitCh sep t := by
  induction pre with
  | nil => simp [splitCh]
  | cons c rest ih =>
    rw [List.mem_cons] at h
    push_neg at h
    rw [List.cons_append, splitCh_cons, if_neg (fun hc => h.1 hc.symm), ih h.2]

theorem space_not_mem_natReprL (n : Nat) : ' ' ∉ natReprL n := by
  intro hm
  have := natReprL_all_digits n ' ' hm
  exact absurd this (by decide)

theorem space_not_mem_intReprL (v : Int) : ' ' ∉ intReprL v := by
  unfold intReprL
  split_ifs
  · intro hm
    rcases List.mem_cons.mp hm with h | h
    · exact absurd h (by decide)
    · exact space_not_mem_natReprL _ h
  · exact space_not_mem_natReprL _

theorem intReprL_ne_nil (v : Int) : intReprL v ≠ [] := by
  unfold intReprL
  split_ifs
  · simp
  · exact natReprL_ne_nil _

theorem natReprL_cons (n : Nat) :
    ∃ c cs, natReprL n = c :: cs ∧ isDigB c = true := by
  cases h : natReprL n with
  | nil => exact absurd h (natReprL_ne_nil n)
  | cons c cs =>
    exact ⟨c, cs, rfl, natReprL_all_digits n c (h ▸ List.mem_cons_self c cs)⟩

theorem atoiL_cons (c : Char) (cs : List Char) :
    atoiL (c :: cs) =
      if c = '-' then
        match parseNumL cs with
        | some n => if n ≤ int64Max + 1 then some (-(n : Int)) else none
        | none => none
      else if c = '+' then
        match parseNumL cs with
        | some n => if n ≤ int64Max then some (n : Int) else none
        | none => none
      else
        match parseNumL (c :: cs) with
        | some n => if n ≤ int64Max then some (n : Int) else none
        | none => none := rfl

/-- Inversion: `strconv.Atoi` reads back the decimal printer's output on the 64-bit range. -/
theorem atoiL_intReprL (v : Int) (hlo : -(2 ^ 63) ≤ v) (hhi : v ≤ 2 ^ 63 - 1) :
    atoiL (intReprL v) = some v := by
  by_cases hv : v < 0
  · unfold intReprL
    rw [if_pos hv, atoiL_cons, if_pos rfl, parseNumL_natReprL]
    show (if v.natAbs ≤ int64Max + 1 then some (-((v.natAbs : Nat) : Int))
      else none) = some v
    rw [if_pos (show v.natAbs ≤ int64Max + 1 from by
      show v.natAbs ≤ 9223372036854775807 + 1; omega)]
    rw [show -((v.natAbs : Nat) : Int) = v by omega]
  · unfold intReprL
    rw [if_neg hv]
    obtain ⟨c, cs, hc, hd⟩ := natReprL_cons v.natAbs
    rw [hc, atoiL_cons,
      if_neg (by rintro rfl; exact absurd hd (by decide)),
      if_neg (by rintro rfl; exact absurd hd (by decide)),
      ← hc, parseNumL_natReprL]
    show (if v.natAbs ≤ int64Max then some ((v.natAbs : Nat) : Int)
      else none) = some v
    rw [if_pos (show v.natAbs ≤ int64Max from by
      show v.natAbs ≤ 9223372036854775807; omega)]
    rw [show ((v.natAbs : Nat) : Int) = v by omega]

/-- Splitting a three-token line on spaces. -/
theorem parts_three (t0 t1 t2 : List Char)
    (h0 : ' ' ∉ t0) (h1 : ' ' ∉ t1) (h2 : ' ' ∉ t2) :
    splitCh ' ' (t0 ++ ' ' :: (t1 ++ ' ' :: t2)) = [t0, t1, t2] := by
  rw [splitCh_append ' ' t0 _ h0, splitCh_append ' ' t1 _ h1,
    splitCh_no_sep ' ' t2 h2]

end VM

namespace VM

/-! ## Claim theorems

Each claim from the specification is settled below.  Shared concrete
objects for witnesses come first. -/

/-- Extract the produced lines of a successful run (failures produce no
output file content). -/
def okLinesOf : GoResult (List String) → List String
  | .ok ls => ls
  | .err _ => []
  | .panics _ => []

/-- A well-formed symbol table for witnesses: every symbol above R15. -/
def labW : List Char → Int := fun _ => 16

/-- A well-formed machine for witnesses: SP 305, LCL 300, ARG 290,
THIS 3000, THAT 3010, everything else 7. -/
def machW : Mach :=
  ⟨0, 0, fun a =>
    if a = 0 then 305 else if a = 1 then 300 else if a = 2 then 290
    else if a = 3 then 3000 else if a = 4 then 3010 else 7⟩

/-- Claim C7: Claim: a cleaned line whose token count violates its command
kind's arity (a lone `push`, a lone `label`) is rejected with a
`MalformedCommand` error rather than crashing.  The code instead panics:
`parseInstruction` accesses `parts[1]` without a length guard
(part_001:464 and 486), so a 1-token non-arithmetic line crashes the
process.  This theorem evaluates the parser at the failing inputs: both
yield the modeled runtime panic, not an error value.  (A lone `function`
also panics; `function f` without a count does return an error.) -/
theorem claim7_parser_panics_on_missing_token :
    parseInstruction 0 "Mod" "push" =
      .panics "runtime error: index out of range" ∧
    parseInstruction 0 "Mod" "label" =
      .panics "runtime error: index out of range" ∧
    parseInstruction 0 "Mod" "function f" = .err "invalid arg2 value: " := by
  exact ⟨rfl, rfl, rfl⟩

/-- Claim C8 counterexample: Claim: a push/pop/function/call whose numeric
token parses as a negative integer (e.g. `push constant -3`) is rejected.
In fact `parseInstruction` runs `strconv.Atoi` with no sign check
(part_001:505-511) and accepts the line, storing the negative value. -/
theorem claim8_negative_accepted_cex :
    parseInstruction 0 "Mod" "push constant -3" =
      .ok { FileName := "Mod", Line := "push constant -3",
            CommandType := .push, Arg1 := "constant",
            SegmentType := .constant, Arg2 := "-3", Arg2Val := -3,
            ALType := .add, Index := 0 } := rfl

/-- Claim C8 (amended): Numeric fields of `push`/`pop`/`function`/`call` are
validated only to parse as (64-bit) integers; every negative in-range
value is accepted, with the negative value stored in `Arg2Val`.  Shown
here for `push constant <v>`, uniformly in the decimal text of `v`. -/
theorem claim8_negative_parses (index : Nat) (fileName : String) (v : Int)
    (hlo : -(2 ^ 63) ≤ v) (hneg : v < 0) :
    parseInstruction index fileName ("push constant " ++ intReprS v) =
      .ok { FileName := fileName, Line := "push constant " ++ intReprS v,
            CommandType := .push, Arg1 := "constant", SegmentType := .constant,
            Arg2 := intReprS v, Arg2Val := v, ALType := .add, Index := 0 } := by
  have hd : ("push constant " ++ intReprS v).data =
      "push".data ++ ' ' :: ("constant".data ++ ' ' :: intReprL v) := by
    rw [String.data_append]; rfl
  have hparts : (splitCh ' ' ("push constant " ++ intReprS v).data).map String.mk =
      ["push", "constant", intReprS v] := by
    rw [hd, parts_three _ _ _ (by decide) (by decide) (space_not_mem_intReprL v)]
    rfl
  have hct : ctOf (toLowerS "push") = some .push := rfl
  have hst : stOf "constant" = some .constant := rfl
  have hlow : toLowerS "constant" = "constant" := rfl
  have hnn : ¬ ((intReprS v).data = []) := intReprL_ne_nil v
  have hatoi : atoiL (intReprS v).data = some v :=
    atoiL_intReprL v hlo (by omega)
  unfold parseInstruction parseCore parseArgs
  rw [hparts]
  simp [hct, hst, hlow, hatoi, hnn, validAL]

/-- Witness for C8: `push constant -3` with module `Mod` at index 4. -/
theorem claim8_witness :
    -(2 ^ 63) ≤ (-3 : Int) ∧ (-3 : Int) < 0 ∧
    parseInstruction 4 "Mod" ("push constant " ++ intReprS (-3)) =
      .ok { FileName := "Mod", Line := "push constant " ++ intReprS (-3),
            CommandType := .push, Arg1 := "constant", SegmentType := .constant,
            Arg2 := intReprS (-3), Arg2Val := -3, ALType := .add, Index := 0 } :=
  ⟨by norm_num, by norm_num,
    claim8_negative_parses 4 "Mod" (-3) (by norm_num) (by norm_num)⟩

/-- Forget the success payload of a parse result, keeping the failure
identity (kind and message). -/
def errPart {α : Type} : GoResult α → GoResult Unit
  | .ok _ => .ok ()
  | .err m => .err m
  | .panics m => .panics m

/-- Claim C9 counterexample: Claim: every parse error identifies the module
name, the 0-based command index and the offending line.  The error for
line `bogus` in module `MyMod` at index 7 contains neither `MyMod` nor
`7` (the error strings carry only the offending token). -/
theorem claim9_error_anonymous_cex :
    parseInstruction 7 "MyMod" "bogus" = .err "invalid command type: bogus" ∧
    hasSubstr "invalid command type: bogus".data "MyMod".data = false ∧
    hasSubstr "invalid command type: bogus".data "7".data = false := by
  exact ⟨rfl, by decide, by decide⟩

/-- Claim C9 (amended): Parse errors describe the failure and quote the
offending token, but include neither the module name nor the command
index: the failure outcome of `parseInstruction` is a function of the
line alone (the Go function copies `index`/`fileName` only into a
successful result's struct fields). -/
theorem claim9_error_independent_of_module (i j : Nat) (f g line : String) :
    errPart (parseInstruction i f line) = errPart (parseInstruction j g line) := by
  unfold parseInstruction
  cases parseCore line <;> rfl

end VM

namespace VM

/-- A single-module program declaring the same label text under two
different function declarations. -/
def labelCollisionModule : Module :=
  ⟨"Main.vm",
   ["function Foo.a 0", "label LOOP", "function Bar.b 0", "label LOOP"]⟩

/-- Claim C3 counterexample: Claim: a `label L` command emits a jump target
derived from the current function name and `L`, so the same `L` under two
different functions yields textually distinct targets.  Running the full
pipeline on `function Foo.a 0 / label LOOP / function Bar.b 0 / label
LOOP` emits the identical line `(LOOP)` twice: the label text is not
function-scoped. -/
theorem claim3_label_collision_cex :
    List.count "(LOOP)" (okLinesOf (linkModules [labelCollisionModule])) = 2 := by
  rfl

/-- Claim C3 (amended): A `label L` command emits the jump-target text
`(L)`, built from the symbol alone; the generator state (in particular
the current function name recorded by `function`) does not enter the
emitted text at all, so equal label symbols under different functions
collide. -/
theorem claim3_label_unscoped (i : Instruction) (st : GenSt)
    (h : i.CommandType = .label) :
    i.GenAsm st = .ok (["// " ++ i.Line, "(" ++ i.Arg1 ++ ")"], st) := by
  unfold Instruction.GenAsm
  rw [h]
  rfl

/-- Witness for C3: a concrete `label LOOP` instruction under generator
state `{Foo.a, 3}`. -/
theorem claim3_witness :
    Instruction.GenAsm
        ⟨"Mod", "label LOOP", .label, "LOOP", .constant, "", 0, .add, 0⟩
        ⟨"Foo.a", 3⟩ =
      .ok (["// " ++ "label LOOP", "(" ++ "LOOP" ++ ")"], ⟨"Foo.a", 3⟩) :=
  claim3_label_unscoped
    ⟨"Mod", "label LOOP", .label, "LOOP", .constant, "", 0, .add, 0⟩
    ⟨"Foo.a", 3⟩ rfl

/-- Claim C10: For `push pointer` / `pop pointer`, the parser accepts every
(64-bit) offset without a range check, and the generator maps offset 0 to
THIS and every other offset to THAT, so any nonzero offset (2, 3, …, or
negative) produces exactly the instruction sequence of offset 1. -/
theorem claim10_pointer_offsets (index : Nat) (fileName : String) (v : Int)
    (hlo : -(2 ^ 63) ≤ v) (hhi : v ≤ 2 ^ 63 - 1) :
    (parseInstruction index fileName ("push pointer " ++ intReprS v) =
      .ok { FileName := fileName, Line := "push pointer " ++ intReprS v,
            CommandType := .push, Arg1 := "pointer", SegmentType := .pointer,
            Arg2 := intReprS v, Arg2Val := v, ALType := .add, Index := 0 }) ∧
    (parseInstruction index fileName ("pop pointer " ++ intReprS v) =
      .ok { FileName := fileName, Line := "pop pointer " ++ intReprS v,
            CommandType := .pop, Arg1 := "pointer", SegmentType := .pointer,
            Arg2 := intReprS v, Arg2Val := v, ALType := .add, Index := 0 }) ∧
    (∀ i : Instruction, i.Arg2Val = v → v ≠ 0 →
      i.genPointerPUSH = ["@THAT", "D=M", "@SP", "A=M", "M=D", "@SP", "M=M+1"] ∧
      i.genPointerPOP = ["@SP", "AM=M-1", "D=M", "@THAT", "M=D"]) ∧
    (∀ i : Instruction, i.Arg2Val = 0 →
      i.genPointerPUSH = ["@THIS", "D=M", "@SP", "A=M", "M=D", "@SP", "M=M+1"] ∧
      i.genPointerPOP = ["@SP", "AM=M-1", "D=M", "@THIS", "M=D"]) := by
  have hct1 : ctOf (toLowerS "push") = some .push := rfl
  have hct2 : ctOf (toLowerS "pop") = some .pop := rfl
  have hst : stOf "pointer" = some .pointer := rfl
  have hlow : toLowerS "pointer" = "pointer" := rfl
  have hnn : ¬ ((intReprS v).data = []) := intReprL_ne_nil v
  have hatoi : atoiL (intReprS v).data = some v := atoiL_intReprL v hlo hhi
  refine ⟨?_, ?_, ?_, ?_⟩
  · have hd : ("push pointer " ++ intReprS v).data =
        "push".data ++ ' ' :: ("pointer".data ++ ' ' :: intReprL v) := by
      rw [String.data_append]; rfl
    have hparts : (splitCh ' ' ("push pointer " ++ intReprS v).data).map String.mk =
        ["push", "pointer", intReprS v] := by
      rw [hd, parts_three _ _ _ (by decide) (by decide) (space_not_mem_intReprL v)]
      rfl
    unfold parseInstruction parseCore parseArgs
    rw [hparts]
    simp [hct1, hst, hlow, hatoi, hnn, validAL]
  · have hd : ("pop pointer " ++ intReprS v).data =
        "pop".data ++ ' ' :: ("pointer".data ++ ' ' :: intReprL v) := by
      rw [String.data_append]; rfl
    have hparts : (splitCh ' ' ("pop pointer " ++ intReprS v).data).map String.mk =
        ["pop", "pointer", intReprS v] := by
      rw [hd, parts_three _ _ _ (by decide) (by decide) (space_not_mem_intReprL v)]
      rfl
    unfold parseInstruction parseCore parseArgs
    rw [hparts]
    simp [hct2, hst, hlow, hatoi, hnn, validAL]
  · intro i hiv hz
    constructor
    · simp [Instruction.genPointerPUSH, hiv, hz]
    · simp [Instruction.genPointerPOP, hiv, hz]
  · intro i hz
    constructor
    · simp [Instruction.genPointerPUSH, hz]
    · simp [Instruction.genPointerPOP, hz]

/-- Witness for C10 at offset 5. -/
theorem claim10_witness :
    -(2 ^ 63) ≤ (5 : Int) ∧ (5 : Int) ≤ 2 ^ 63 - 1 ∧
    ((parseInstruction 2 "Mod" ("push pointer " ++ intReprS 5) =
      .ok { FileName := "Mod", Line := "push pointer " ++ intReprS 5,
            CommandType := .push, Arg1 := "pointer", SegmentType := .pointer,
            Arg2 := intReprS 5, Arg2Val := 5, ALType := .add, Index := 0 }) ∧
    (parseInstruction 2 "Mod" ("pop pointer " ++ intReprS 5) =
      .ok { FileName := "Mod", Line := "pop pointer " ++ intReprS 5,
            CommandType := .pop, Arg1 := "pointer", SegmentType := .pointer,
            Arg2 := intReprS 5, Arg2Val := 5, ALType := .add, Index := 0 }) ∧
    (∀ i : Instruction, i.Arg2Val = 5 → (5 : Int) ≠ 0 →
      i.genPointerPUSH = ["@THAT", "D=M", "@SP", "A=M", "M=D", "@SP", "M=M+1"] ∧
      i.genPointerPOP = ["@SP", "AM=M-1", "D=M", "@THAT", "M=D"]) ∧
    (∀ i : Instruction, i.Arg2Val = 0 →
      i.genPointerPUSH = ["@THIS", "D=M", "@SP", "A=M", "M=D", "@SP", "M=M+1"] ∧
      i.genPointerPOP = ["@SP", "AM=M-1", "D=M", "@THIS", "M=D"])) :=
  ⟨by norm_num, by norm_num, claim10_pointer_offsets 2 "Mod" 5 (by norm_num) (by norm_num)⟩

end VM

namespace VM

/-- Is the emitted line a label declaration (`(...)`)?  -/
def isLabelLine (s : String) : Bool :=
  match s.data with
  | '(' :: _ => true
  | _ => false

/-- The text `(<OPUP>.<k>)` of an emitted comparison branch label, with
`OPUP` the upper-cased `<op>_true`/`<op>_false` part. -/
def compLabelStr (opUp : String) (k : Nat) : String :=
  String.mk ('(' :: (opUp.data ++ '.' :: (natReprL k ++ [')'])))

theorem upperChar_digit (c : Char) (h : isDigB c = true) : upperChar c = c := by
  unfold upperChar
  rw [if_neg]
  simp only [isDigB, Bool.and_eq_true, decide_eq_true_eq] at h
  omega

theorem upper_natReprL (n : Nat) : (natReprL n).map upperChar = natReprL n := by
  have h : ∀ c ∈ natReprL n, upperChar c = id c := fun c hc =>
    upperChar_digit c (natReprL_all_digits n c hc)
  rw [List.map_congr_left h, List.map_id]

theorem upper_paren1 : upperChar '(' = '(' := by decide
theorem upper_paren2 : upperChar ')' = ')' := by decide
theorem upper_dot : upperChar '.' = '.' := by decide
theorem upper_atSign : upperChar '@' = '@' := by decide

theorem getLogicalLabel_comp (i : Instruction) (p pu : String)
    (hp : p.data.map upperChar = pu.data) :
    i.getLogicalLabel p = compLabelStr pu i.Index := by
  unfold Instruction.getLogicalLabel compLabelStr toUpperS natReprS
  congr 1
  simp [String.data_append, List.map_append, upper_natReprL, hp,
    upper_paren1, upper_paren2, upper_dot]

theorem isLabelLine_logL (i : Instruction) (p : String) :
    isLabelLine (i.getLogicalLabel p) = true := by
  unfold Instruction.getLogicalLabel toUpperS isLabelLine
  simp [String.data_append, List.map_append, upper_paren1]

theorem isLabelLine_logA (i : Instruction) (p : String) :
    isLabelLine (i.getLogicalARegister p) = false := by
  unfold Instruction.getLogicalARegister toUpperS isLabelLine
  simp [String.data_append, List.map_append, upper_atSign]

theorem comp_filter_eq (i : Instruction) (h : i.ALType = .eq) :
    i.genArithmetic.filter isLabelLine =
      [compLabelStr "EQ_TRUE" i.Index, compLabelStr "EQ_FALSE" i.Index] := by
  rw [show compLabelStr "EQ_TRUE" i.Index = i.getLogicalLabel ("eq" ++ "_true")
    from (getLogicalLabel_comp i _ _ (by rfl)).symm]
  rw [show compLabelStr "EQ_FALSE" i.Index = i.getLogicalLabel ("eq" ++ "_false")
    from (getLogicalLabel_comp i _ _ (by rfl)).symm]
  have l1 : isLabelLine "@SP" = false := rfl
  have l2 : isLabelLine "AM=M-1" = false := rfl
  have l3 : isLabelLine "D=M" = false := rfl
  have l4 : isLabelLine "A=A-1" = false := rfl
  have l5 : isLabelLine "D=M-D" = false := rfl
  have l6 : isLabelLine "D;JEQ" = false := rfl
  have l7 : isLabelLine "A=M-1" = false := rfl
  have l8 : isLabelLine "M=0" = false := rfl
  have l9 : isLabelLine "0;JMP" = false := rfl
  have l10 : isLabelLine "M=-1" = false := rfl
  simp [Instruction.genArithmetic, h, Instruction.genCompare,
    isLabelLine_logL, isLabelLine_logA,
    l1, l2, l3, l4, l5, l6, l7, l8, l9, l10]

theorem comp_filter_gt (i : Instruction) (h : i.ALType = .gt) :
    i.genArithmetic.filter isLabelLine =
      [compLabelStr "GT_TRUE" i.Index, compLabelStr "GT_FALSE" i.Index] := by
  rw [show compLabelStr "GT_TRUE" i.Index = i.getLogicalLabel ("gt" ++ "_true")
    from (getLogicalLabel_comp i _ _ (by rfl)).symm]
  rw [show compLabelStr "GT_FALSE" i.Index = i.getLogicalLabel ("gt" ++ "_false")
    from (getLogicalLabel_comp i _ _ (by rfl)).symm]
  have l1 : isLabelLine "@SP" = false := rfl
  have l2 : isLabelLine "AM=M-1" = false := rfl
  have l3 : isLabelLine "D=M" = false := rfl
  have l4 : isLabelLine "A=A-1" = false := rfl
  have l5 : isLabelLine "D=M-D" = false := rfl
  have l6 : isLabelLine "D;JGT" = false := rfl
  have l7 : isLabelLine "A=M-1" = false := rfl
  have l8 : isLabelLine "M=0" = false := rfl
  have l9 : isLabelLine "0;JMP" = false := rfl
  have l10 : isLabelLine "M=-1" = false := rfl
  simp [Instruction.genArithmetic, h, Instruction.genCompare,
    isLabelLine_logL, isLabelLine_logA,
    l1, l2, l3, l4, l5, l6, l7, l8, l9, l10]

theorem comp_filter_lt (i : Instruction) (h : i.ALType = .lt) :
    i.genArithmetic.filter isLabelLine =
      [compLabelStr "LT_TRUE" i.Index, compLabelStr "LT_FALSE" i.Index] := by
  rw [show compLabelStr "LT_TRUE" i.Index = i.getLogicalLabel ("lt" ++ "_true")
    from (getLogicalLabel_comp i _ _ (by rfl)).symm]
  rw [show compLabelStr "LT_FALSE" i.Index = i.getLogicalLabel ("lt" ++ "_false")
    from (getLogicalLabel_comp i _ _ (by rfl)).symm]
  have l1 : isLabelLine "@SP" = false := rfl
  have l2 : isLabelLine "AM=M-1" = false := rfl
  have l3 : isLabelLine "D=M" = false := rfl
  have l4 : isLabelLine "A=A-1" = false := rfl
  have l5 : isLabelLine "D=M-D" = false := rfl
  have l6 : isLabelLine "D;JLT" = false := rfl
  have l7 : isLabelLine "A=M-1" = false := rfl
  have l8 : isLabelLine "M=0" = false := rfl
  have l9 : isLabelLine "0;JMP" = false := rfl
  have l10 : isLabelLine "M=-1" = false := rfl
  simp [Instruction.genArithmetic, h, Instruction.genCompare,
    isLabelLine_logL, isLabelLine_logA,
    l1, l2, l3, l4, l5, l6, l7, l8, l9, l10]

theorem append_dot_inj (u v x y : List Char) (hu : '.' ∉ u) (hv : '.' ∉ v)
    (h : u ++ '.' :: x = v ++ '.' :: y) : u = v ∧ x = y := by
  induction u generalizing v with
  | nil =>
    cases v with
    | nil => simpa using h
    | cons d vs =>
      rw [List.nil_append, List.cons_append, List.cons.injEq] at h
      exact absurd (h.1 ▸ List.mem_cons_self d vs) hv
  | cons c us ih =>
    cases v with
    | nil =>
      rw [List.nil_append, List.cons_append, List.cons.injEq] at h
      exact absurd (h.1 ▸ List.mem_cons_self c us) hu
    | cons d vs =>
      rw [List.cons_append, List.cons_append, List.cons.injEq] at h
      have hu' : '.' ∉ us := fun hm => hu (List.mem_cons_of_mem c hm)
      have hv' : '.' ∉ vs := fun hm => hv (List.mem_cons_of_mem d hm)
      obtain ⟨h1, h2⟩ := ih vs hu' hv' h.2
      exact ⟨by rw [h.1, h1], h2⟩

theorem compLabelStr_inj (a b : String) (k j : Nat)
    (ha : '.' ∉ a.data) (hb : '.' ∉ b.data)
    (h : compLabelStr a k = compLabelStr b j) : a = b ∧ k = j := by
  unfold compLabelStr at h
  have hd : '(' :: (a.data ++ '.' :: (natReprL k ++ [')'])) =
      '(' :: (b.data ++ '.' :: (natReprL j ++ [')'])) := congrArg String.data h
  rw [List.cons.injEq] at hd
  obtain ⟨heq, htail⟩ := append_dot_inj _ _ _ _ ha hb hd.2
  refine ⟨?_, natReprL_injective (List.append_cancel_right htail)⟩
  cases a; cases b
  exact congrArg String.mk heq


/-- A single-module program in which a user label command collides with a
comparison branch label: `label EQ_TRUE.1` emits `(EQ_TRUE.1)` and the
`eq` command at sequence index 1 also emits `(EQ_TRUE.1)`. -/
def compareCollisionModule : Module :=
  ⟨"Main.vm", ["label EQ_TRUE.1", "eq"]⟩

/-- Claim C5 counterexample: Claim: a comparison at index k emits the two
labels `<op>_true.k` / `<op>_false.k` and no other command in a run of at
most 10000 commands emits an identical label text.  Running the pipeline
on the 2-command program `label EQ_TRUE.1 / eq` emits the line
`(EQ_TRUE.1)` twice: once from the user `label` command and once from the
`eq` at index 1 (whose labels are also upper-cased, not the claimed
lowercase `eq_true.1`). -/
theorem claim5_comparison_label_cex :
    List.count "(EQ_TRUE.1)"
      (okLinesOf (linkModules [compareCollisionModule])) = 2 := by
  rfl

/-- Claim C5 (amended): Each comparison command (`eq`/`gt`/`lt`) at index k
emits exactly two label lines, the upper-cased `(<OP>_TRUE.k)` and
`(<OP>_FALSE.k)`; any two comparison commands that differ in operator or
index emit disjoint label texts.  (Global uniqueness against *all* other
commands fails — a user `label` or `function` symbol can coincide, see the
counterexample — so uniqueness is restated for the generated comparison
labels among themselves.) -/
theorem claim5_comparison_labels (i j : Instruction)
    (hial : i.ALType = .eq ∨ i.ALType = .gt ∨ i.ALType = .lt)
    (hjal : j.ALType = .eq ∨ j.ALType = .gt ∨ j.ALType = .lt) :
    (i.ALType = .eq → i.genArithmetic.filter isLabelLine =
        [compLabelStr "EQ_TRUE" i.Index, compLabelStr "EQ_FALSE" i.Index]) ∧
    (i.ALType = .gt → i.genArithmetic.filter isLabelLine =
        [compLabelStr "GT_TRUE" i.Index, compLabelStr "GT_FALSE" i.Index]) ∧
    (i.ALType = .lt → i.genArithmetic.filter isLabelLine =
        [compLabelStr "LT_TRUE" i.Index, compLabelStr "LT_FALSE" i.Index]) ∧
    (¬ (i.ALType = j.ALType ∧ i.Index = j.Index) →
      ∀ s ∈ i.genArithmetic.filter isLabelLine,
        s ∉ j.genArithmetic.filter isLabelLine) := by
  refine ⟨comp_filter_eq i, comp_filter_gt i, comp_filter_lt i, ?_⟩
  intro hne s hs hs'
  rcases hial with hi | hi | hi <;> rcases hjal with hj | hj | hj
  · rw [comp_filter_eq i hi] at hs
    rw [comp_filter_eq j hj] at hs'
    simp only [List.mem_cons, List.not_mem_nil, or_false] at hs hs'
    rcases hs with rfl | rfl <;> rcases hs' with hcol | hcol <;>
      obtain ⟨hab, hk⟩ :=
        compLabelStr_inj _ _ _ _ (by decide) (by decide) hcol <;>
      first
      | exact absurd hab (by decide)
      | exact hne ⟨hi.trans hj.symm, hk⟩
  · rw [comp_filter_eq i hi] at hs
    rw [comp_filter_gt j hj] at hs'
    simp only [List.mem_cons, List.not_mem_nil, or_false] at hs hs'
    rcases hs with rfl | rfl <;> rcases hs' with hcol | hcol <;>
      obtain ⟨hab, hk⟩ :=
        compLabelStr_inj _ _ _ _ (by decide) (by decide) hcol <;>
      exact absurd hab (by decide)
  · rw [comp_filter_eq i hi] at hs
    rw [comp_filter_lt j hj] at hs'
    simp only [List.mem_cons, List.not_mem_nil, or_false] at hs hs'
    rcases hs with rfl | rfl <;> rcases hs' with hcol | hcol <;>
      obtain ⟨hab, hk⟩ :=
        compLabelStr_inj _ _ _ _ (by decide) (by decide) hcol <;>
      exact absurd hab (by decide)
  · rw [comp_filter_gt i hi] at hs
    rw [comp_filter_eq j hj] at hs'
    simp only [List.mem_cons, List.not_mem_nil, or_false] at hs hs'
    rcases hs with rfl | rfl <;> rcases hs' with hcol | hcol <;>
      obtain ⟨hab, hk⟩ :=
        compLabelStr_inj _ _ _ _ (by decide) (by decide) hcol <;>
      exact absurd hab (by decide)
  · rw [comp_filter_gt i hi] at hs
    rw [comp_filter_gt j hj] at hs'
    simp only [List.mem_cons, List.not_mem_nil, or_false] at hs hs'
    rcases hs with rfl | rfl <;> rcases hs' with hcol | hcol <;>
      obtain ⟨hab, hk⟩ :=
        compLabelStr_inj _ _ _ _ (by decide) (by decide) hcol <;>
      first
      | exact absurd hab (by decide)
      | exact hne ⟨hi.trans hj.symm, hk⟩
  · rw [comp_filter_gt i hi] at hs
    rw [comp_filter_lt j hj] at hs'
    simp only [List.mem_cons, List.not_mem_nil, or_false] at hs hs'
    rcases hs with rfl | rfl <;> rcases hs' with hcol | hcol <;>
      obtain ⟨hab, hk⟩ :=
        compLabelStr_inj _ _ _ _ (by decide) (by decide) hcol <;>
      exact absurd hab (by decide)
  · rw [comp_filter_lt i hi] at hs
    rw [comp_filter_eq j hj] at hs'
    simp only [List.mem_cons, List.not_mem_nil, or_false] at hs hs'
    rcases hs with rfl | rfl <;> rcases hs' with hcol | hcol <;>
      obtain ⟨hab, hk⟩ :=
        compLabelStr_inj _ _ _ _ (by decide) (by decide) hcol <;>
      exact absurd hab (by decide)
  · rw [comp_filter_lt i hi] at hs
    rw [comp_filter_gt j hj] at hs'
    simp only [List.mem_cons, List.not_mem_nil, or_false] at hs hs'
    rcases hs with rfl | rfl <;> rcases hs' with hcol | hcol <;>
      obtain ⟨hab, hk⟩ :=
        compLabelStr_inj _ _ _ _ (by decide) (by decide) hcol <;>
      exact absurd hab (by decide)
  · rw [comp_filter_lt i hi] at hs
    rw [comp_filter_lt j hj] at hs'
    simp only [List.mem_cons, List.not_mem_nil, or_false] at hs hs'
    rcases hs with rfl | rfl <;> rcases hs' with hcol | hcol <;>
      obtain ⟨hab, hk⟩ :=
        compLabelStr_inj _ _ _ _ (by decide) (by decide) hcol <;>
      first
      | exact absurd hab (by decide)
      | exact hne ⟨hi.trans hj.symm, hk⟩

/-- Witness for C5: an `eq` at index 3 against a `gt` at index 3. -/
theorem claim5_witness :
    ((ALType.eq = .eq ∨ ALType.eq = .gt ∨ ALType.eq = .lt) ∧
     (ALType.gt = .eq ∨ ALType.gt = .gt ∨ ALType.gt = .lt)) ∧
    ((Instruction.genArithmetic
        ⟨"M", "eq", .arithmetic, "eq", .constant, "", 0, .eq, 3⟩).filter
          isLabelLine =
      [compLabelStr "EQ_TRUE" 3, compLabelStr "EQ_FALSE" 3]) ∧
    (∀ s ∈ (Instruction.genArithmetic
        ⟨"M", "eq", .arithmetic, "eq", .constant, "", 0, .eq, 3⟩).filter
          isLabelLine,
      s ∉ (Instruction.genArithmetic
        ⟨"M", "gt", .arithmetic, "gt", .constant, "", 0, .gt, 3⟩).filter
          isLabelLine) := by
  refine ⟨⟨Or.inl rfl, Or.inr (Or.inl rfl)⟩, ?_, ?_⟩
  · exact (claim5_comparison_labels
      ⟨"M", "eq", .arithmetic, "eq", .constant, "", 0, .eq, 3⟩
      ⟨"M", "gt", .arithmetic, "gt", .constant, "", 0, .gt, 3⟩
      (Or.inl rfl) (Or.inr (Or.inl rfl))).1 rfl
  · exact (claim5_comparison_labels
      ⟨"M", "eq", .arithmetic, "eq", .constant, "", 0, .eq, 3⟩
      ⟨"M", "gt", .arithmetic, "gt", .constant, "", 0, .gt, 3⟩
      (Or.inl rfl) (Or.inr (Or.inl rfl))).2.2.2 (by simp)

end VM

namespace VM

/-- Claim C6: For every parsed push command, executing its generated
sequence on a well-formed machine advances the stack pointer (RAM[0]) by
exactly +1; for every parsed pop command — including `pop constant`,
which is accepted and merely drops the popped value — the change is
exactly −1; and no memory read or write in either sequence touches an
address below 0.  Well-formedness of machine and program: the offset is
non-negative, SP ≥ 1 (the stack is non-empty, so a pop has something to
pop has a slot below it and a push's target slot is not the SP cell itself), the four
segment bases and every assembler-assigned symbol address are ≥ 1 (on
the Hack platform they are ≥ 16/256). -/
theorem claim6_push_pop_stack_effect (i : Instruction) (st : GenSt)
    (lab : List Char → Int) (m : Mach)
    (hoff : 0 ≤ i.Arg2Val)
    (hsp : 1 ≤ m.mem 0)
    (hlcl : 1 ≤ m.mem 1) (harg : 1 ≤ m.mem 2)
    (hthis : 1 ≤ m.mem 3) (hthat : 1 ≤ m.mem 4)
    (hlab : ∀ cs, 1 ≤ lab cs) :
    (i.CommandType = .push →
      ∃ ls, i.GenAsm st = .ok (ls, st) ∧
        (run lab m ls).mem 0 = m.mem 0 + 1 ∧
        ∀ a ∈ accesses lab m ls, 0 ≤ a) ∧
    (i.CommandType = .pop →
      ∃ ls, i.GenAsm st = .ok (ls, st) ∧
        (run lab m ls).mem 0 = m.mem 0 - 1 ∧
        ∀ a ∈ accesses lab m ls, 0 ≤ a) := by
  have h0 : ¬ ((0:Int) = m.mem 0) := by omega
  have hv := resolveAt_intReprS lab i.Arg2Val hoff
  have hstat := hlab (i.FileName.data ++ '.' :: (intReprS i.Arg2Val).data)
  constructor
  · intro hct
    cases hseg : i.SegmentType
    case constant =>
      have hG : i.GenAsm st = .ok (("// " ++ i.Line) :: genConstantPUSH i.Arg2Val, st) := by
        simp [Instruction.GenAsm, hct, hseg]
      refine ⟨_, hG, ?_⟩
      simp [genConstantPUSH, upd, h0, step_at, hv]
      omega
    case lcl =>
      have hG : i.GenAsm st = .ok (("// " ++ i.Line) :: genSegmentPUSH SegmentType.lcl i.Arg2Val, st) := by
        simp [Instruction.GenAsm, hct, hseg]
      refine ⟨_, hG, ?_⟩
      simp [genSegmentPUSH, SegmentType.ID, upd, h0, step_at, hv]
      omega
    case arg =>
      have hG : i.GenAsm st = .ok (("// " ++ i.Line) :: genSegmentPUSH SegmentType.arg i.Arg2Val, st) := by
        simp [Instruction.GenAsm, hct, hseg]
      refine ⟨_, hG, ?_⟩
      simp [genSegmentPUSH, SegmentType.ID, upd, h0, step_at, hv]
      omega
    case thisSeg =>
      have hG : i.GenAsm st = .ok (("// " ++ i.Line) :: genSegmentPUSH SegmentType.thisSeg i.Arg2Val, st) := by
        simp [Instruction.GenAsm, hct, hseg]
      refine ⟨_, hG, ?_⟩
      simp [genSegmentPUSH, SegmentType.ID, upd, h0, step_at, hv]
      omega
    case thatSeg =>
      have hG : i.GenAsm st = .ok (("// " ++ i.Line) :: genSegmentPUSH SegmentType.thatSeg i.Arg2Val, st) := by
        simp [Instruction.GenAsm, hct, hseg]
      refine ⟨_, hG, ?_⟩
      simp [genSegmentPUSH, SegmentType.ID, upd, h0, step_at, hv]
      omega
    case static =>
      have hG : i.GenAsm st = .ok (("// " ++ i.Line) :: i.genStaticPUSH, st) := by
        simp [Instruction.GenAsm, hct, hseg]
      refine ⟨_, hG, ?_⟩
      simp [Instruction.genStaticPUSH, upd, h0, step_at, resolveAt_staticL]
      omega
    case temp =>
      have hG : i.GenAsm st = .ok (("// " ++ i.Line) :: i.genTempPUSH, st) := by
        simp [Instruction.GenAsm, hct, hseg]
      refine ⟨_, hG, ?_⟩
      simp [Instruction.genTempPUSH, upd, h0, step_at, hv]
      omega
    case pointer =>
      have hG : i.GenAsm st = .ok (("// " ++ i.Line) :: i.genPointerPUSH, st) := by
        simp [Instruction.GenAsm, hct, hseg]
      refine ⟨_, hG, ?_⟩
      by_cases hz : i.Arg2Val = 0 <;>
        simp [Instruction.genPointerPUSH, hz, upd, h0, step_at] <;>
        omega
  · intro hct
    cases hseg : i.SegmentType
    case constant =>
      have hG : i.GenAsm st = .ok (("// " ++ i.Line) :: genConstantPOP, st) := by
        simp [Instruction.GenAsm, hct, hseg]
      refine ⟨_, hG, ?_⟩
      simp [genConstantPOP, upd, step_at]
      omega
    case lcl =>
      have h1 : ¬ ((0:Int) = i.Arg2Val + m.mem 1) := by omega
      have hG : i.GenAsm st = .ok (("// " ++ i.Line) :: genSegmentPOP SegmentType.lcl i.Arg2Val, st) := by
        simp [Instruction.GenAsm, hct, hseg]
      refine ⟨_, hG, ?_⟩
      simp [genSegmentPOP, SegmentType.ID, upd, step_at, hv, h1]
      omega
    case arg =>
      have h1 : ¬ ((0:Int) = i.Arg2Val + m.mem 2) := by omega
      have hG : i.GenAsm st = .ok (("// " ++ i.Line) :: genSegmentPOP SegmentType.arg i.Arg2Val, st) := by
        simp [Instruction.GenAsm, hct, hseg]
      refine ⟨_, hG, ?_⟩
      simp [genSegmentPOP, SegmentType.ID, upd, step_at, hv, h1]
      omega
    case thisSeg =>
      have h1 : ¬ ((0:Int) = i.Arg2Val + m.mem 3) := by omega
      have hG : i.GenAsm st = .ok (("// " ++ i.Line) :: genSegmentPOP SegmentType.thisSeg i.Arg2Val, st) := by
        simp [Instruction.GenAsm, hct, hseg]
      refine ⟨_, hG, ?_⟩
      simp [genSegmentPOP, SegmentType.ID, upd, step_at, hv, h1]
      omega
    case thatSeg =>
      have h1 : ¬ ((0:Int) = i.Arg2Val + m.mem 4) := by omega
      have hG : i.GenAsm st = .ok (("// " ++ i.Line) :: genSegmentPOP SegmentType.thatSeg i.Arg2Val, st) := by
        simp [Instruction.GenAsm, hct, hseg]
      refine ⟨_, hG, ?_⟩
      simp [genSegmentPOP, SegmentType.ID, upd, step_at, hv, h1]
      omega
    case static =>
      have h1 : ¬ ((0:Int) = lab (i.FileName.data ++ '.' :: (intReprS i.Arg2Val).data)) := by
        omega
      have hG : i.GenAsm st = .ok (("// " ++ i.Line) :: i.genStaticPOP, st) := by
        simp [Instruction.GenAsm, hct, hseg]
      refine ⟨_, hG, ?_⟩
      simp [Instruction.genStaticPOP, upd, step_at, resolveAt_staticL, h1]
      omega
    case temp =>
      have h1 : ¬ ((0:Int) = i.Arg2Val + 5) := by omega
      have hG : i.GenAsm st = .ok (("// " ++ i.Line) :: i.genTempPOP, st) := by
        simp [Instruction.GenAsm, hct, hseg]
      refine ⟨_, hG, ?_⟩
      simp [Instruction.genTempPOP, upd, step_at, hv, h1]
      omega
    case pointer =>
      have hG : i.GenAsm st = .ok (("// " ++ i.Line) :: i.genPointerPOP, st) := by
        simp [Instruction.GenAsm, hct, hseg]
      refine ⟨_, hG, ?_⟩
      by_cases hz : i.Arg2Val = 0 <;>
        simp [Instruction.genPointerPOP, hz, upd, step_at] <;>
        omega

end VM

namespace VM

/-- A concrete parsed `push local 2` instruction for the C6 witness. -/
def pushW : Instruction :=
  ⟨"Mod", "push local 2", .push, "local", .lcl, "2", 2, .add, 0⟩

/-- Witness for C6: `push local 2` on the machine `machW`. -/
theorem claim6_witness :
    (0 ≤ pushW.Arg2Val ∧ 1 ≤ machW.mem 0 ∧ 1 ≤ machW.mem 1 ∧
     1 ≤ machW.mem 2 ∧ 1 ≤ machW.mem 3 ∧ 1 ≤ machW.mem 4 ∧
     ∀ cs, 1 ≤ labW cs) ∧
    ((pushW.CommandType = .push →
      ∃ ls, pushW.GenAsm initialGenSt = .ok (ls, initialGenSt) ∧
        (run labW machW ls).mem 0 = machW.mem 0 + 1 ∧
        ∀ a ∈ accesses labW machW ls, 0 ≤ a) ∧
    (pushW.CommandType = .pop →
      ∃ ls, pushW.GenAsm initialGenSt = .ok (ls, initialGenSt) ∧
        (run labW machW ls).mem 0 = machW.mem 0 - 1 ∧
        ∀ a ∈ accesses labW machW ls, 0 ≤ a)) :=
  ⟨⟨by decide, by decide, by decide, by decide, by decide, by decide,
    fun _ => by norm_num [labW]⟩,
   claim6_push_pop_stack_effect pushW initialGenSt labW machW (by decide)
     (by decide) (by decide) (by decide) (by decide) (by decide)
     (fun _ => by norm_num [labW])⟩

end VM

namespace VM

/-- Claim C1: For a `call f N` the generator emits, in order: push of a
fresh return-address label value; pushes of the caller's LCL, ARG, THIS,
THAT bases (exactly 4 slots in that fixed order — witnessed by the slot
layout `SP0 .. SP0+4` below); `ARG := SP − 5 − N` and `LCL := SP`; an
unconditional jump to `f`'s entry label; and the declaration of the
return-address label immediately after the jump.  Executing the sequence
from a state with `SP = SP0 ≥ 5` (so the pushed slots cannot alias the
register cells 0-4) yields: slots `SP0..SP0+4` hold return address, LCL,
ARG, THIS, THAT; `SP = SP0 + 5`; and — the claim's frame equation, with
"stack pointer at call time" the SP current at the jump (jumps do not
change SP) — `ARG = SP − 5 − N` (equivalently `SP0 − N`) and `LCL = SP`.
Freshness of the label: the per-run `retIndex` counter, embedded in the
label text, advances by 1. -/
theorem claim1_call_protocol (st : GenSt) (calleeFn : String) (n : Nat)
    (lab : List Char → Int) (m : Mach) (hsp : 5 ≤ m.mem 0) :
    ((run lab m (genCall st calleeFn (n : Int)).1).mem (m.mem 0) =
        resolveAt lab
          (st.currentFunctionName ++ "$ret." ++ natReprS st.retIndex).data ∧
      (run lab m (genCall st calleeFn (n : Int)).1).mem (m.mem 0 + 1) = m.mem 1 ∧
      (run lab m (genCall st calleeFn (n : Int)).1).mem (m.mem 0 + 2) = m.mem 2 ∧
      (run lab m (genCall st calleeFn (n : Int)).1).mem (m.mem 0 + 3) = m.mem 3 ∧
      (run lab m (genCall st calleeFn (n : Int)).1).mem (m.mem 0 + 4) = m.mem 4) ∧
    (run lab m (genCall st calleeFn (n : Int)).1).mem 0 = m.mem 0 + 5 ∧
    (run lab m (genCall st calleeFn (n : Int)).1).mem 2 =
      (run lab m (genCall st calleeFn (n : Int)).1).mem 0 - 5 - (n : Int) ∧
    (run lab m (genCall st calleeFn (n : Int)).1).mem 1 =
      (run lab m (genCall st calleeFn (n : Int)).1).mem 0 ∧
    (∃ pre, (genCall st calleeFn (n : Int)).1 =
      pre ++ ["/// call ; goto function " ++ calleeFn, "@" ++ calleeFn, "0;JMP",
        "(" ++ (st.currentFunctionName ++ "$ret." ++ natReprS st.retIndex) ++ ")"]) ∧
    (genCall st calleeFn (n : Int)).2 = { st with retIndex := st.retIndex + 1 } := by
  have hsem :
      ((run lab m (genCall st calleeFn (n : Int)).1).mem (m.mem 0) =
          resolveAt lab
            (st.currentFunctionName ++ "$ret." ++ natReprS st.retIndex).data ∧
        (run lab m (genCall st calleeFn (n : Int)).1).mem (m.mem 0 + 1) = m.mem 1 ∧
        (run lab m (genCall st calleeFn (n : Int)).1).mem (m.mem 0 + 2) = m.mem 2 ∧
        (run lab m (genCall st calleeFn (n : Int)).1).mem (m.mem 0 + 3) = m.mem 3 ∧
        (run lab m (genCall st calleeFn (n : Int)).1).mem (m.mem 0 + 4) = m.mem 4) ∧
      (run lab m (genCall st calleeFn (n : Int)).1).mem 0 = m.mem 0 + 5 ∧
      (run lab m (genCall st calleeFn (n : Int)).1).mem 2 =
        (run lab m (genCall st calleeFn (n : Int)).1).mem 0 - 5 - (n : Int) ∧
      (run lab m (genCall st calleeFn (n : Int)).1).mem 1 =
        (run lab m (genCall st calleeFn (n : Int)).1).mem 0 := by
    have hv5 : resolveAt lab (intReprS (5 + (n : Int))).data = 5 + (n : Int) :=
      resolveAt_intReprS lab _ (by omega)
    have e2 : m.mem 0 + 1 + 1 = m.mem 0 + 2 := by omega
    have e3 : m.mem 0 + 2 + 1 = m.mem 0 + 3 := by omega
    have e4 : m.mem 0 + 3 + 1 = m.mem 0 + 4 := by omega
    have e5 : m.mem 0 + 4 + 1 = m.mem 0 + 5 := by omega
    have d00 : ¬ ((0:Int) = m.mem 0) := by omega
    have d01 : ¬ ((0:Int) = m.mem 0 + 1) := by omega
    have d02 : ¬ ((0:Int) = m.mem 0 + 2) := by omega
    have d03 : ¬ ((0:Int) = m.mem 0 + 3) := by omega
    have d04 : ¬ ((0:Int) = m.mem 0 + 4) := by omega
    have d10 : ¬ ((1:Int) = m.mem 0) := by omega
    have d11 : ¬ ((1:Int) = m.mem 0 + 1) := by omega
    have d12 : ¬ ((1:Int) = m.mem 0 + 2) := by omega
    have d13 : ¬ ((1:Int) = m.mem 0 + 3) := by omega
    have d14 : ¬ ((1:Int) = m.mem 0 + 4) := by omega
    have d20 : ¬ ((2:Int) = m.mem 0) := by omega
    have d21 : ¬ ((2:Int) = m.mem 0 + 1) := by omega
    have d22 : ¬ ((2:Int) = m.mem 0 + 2) := by omega
    have d23 : ¬ ((2:Int) = m.mem 0 + 3) := by omega
    have d24 : ¬ ((2:Int) = m.mem 0 + 4) := by omega
    have d30 : ¬ ((3:Int) = m.mem 0) := by omega
    have d31 : ¬ ((3:Int) = m.mem 0 + 1) := by omega
    have d32 : ¬ ((3:Int) = m.mem 0 + 2) := by omega
    have d33 : ¬ ((3:Int) = m.mem 0 + 3) := by omega
    have d34 : ¬ ((3:Int) = m.mem 0 + 4) := by omega
    have d40 : ¬ ((4:Int) = m.mem 0) := by omega
    have d41 : ¬ ((4:Int) = m.mem 0 + 1) := by omega
    have d42 : ¬ ((4:Int) = m.mem 0 + 2) := by omega
    have d43 : ¬ ((4:Int) = m.mem 0 + 3) := by omega
    have d44 : ¬ ((4:Int) = m.mem 0 + 4) := by omega
    have dm0 : ¬ (m.mem 0 + 1 = m.mem 0) := by omega
    have dm1 : ¬ (m.mem 0 + 2 = m.mem 0 + 1) := by omega
    have dm2 : ¬ (m.mem 0 + 2 = m.mem 0) := by omega
    have dm3 : ¬ (m.mem 0 + 3 = m.mem 0 + 2) := by omega
    have dm4 : ¬ (m.mem 0 + 3 = m.mem 0 + 1) := by omega
    have dm5 : ¬ (m.mem 0 + 3 = m.mem 0) := by omega
    have dm6 : ¬ (m.mem 0 + 4 = m.mem 0 + 3) := by omega
    have dm7 : ¬ (m.mem 0 + 4 = m.mem 0 + 2) := by omega
    have dm8 : ¬ (m.mem 0 + 4 = m.mem 0 + 1) := by omega
    have dm9 : ¬ (m.mem 0 + 4 = m.mem 0) := by omega
    simp [genCall, SegmentType.ID, upd, step_at, hv5,
      e2, e3, e4, e5,
      d00, d01, d02, d03, d04, d10, d11, d12, d13, d14,
      d20, d21, d22, d23, d24, d30, d31, d32, d33, d34,
      d40, d41, d42, d43, d44, dm0, dm1, dm2, dm3, dm4, dm5, dm6, dm7, dm8, dm9]
    omega
  refine ⟨hsem.1, hsem.2.1, hsem.2.2.1, hsem.2.2.2, ?_, rfl⟩
  refine ⟨["/// call ; working with return address " ++
      (st.currentFunctionName ++ "$ret." ++ natReprS st.retIndex),
    "@" ++ (st.currentFunctionName ++ "$ret." ++ natReprS st.retIndex),
    "D=A", "@SP", "A=M", "M=D", "@SP", "M=M+1"] ++
    ([SegmentType.lcl, .arg, .thisSeg, .thatSeg].flatMap fun seg =>
      ["/// call ; working with " ++ seg.ID,
       "@" ++ seg.ID, "D=M", "@SP", "A=M", "M=D", "@SP", "M=M+1"]) ++
    ["/// call ; ARG = SP - 5 - nArgs",
     "@" ++ intReprS (5 + (n : Int)), "D=A", "@SP", "A=M", "D=A-D",
     "@ARG", "M=D", "/// call ; LCL = SP", "@SP", "D=M", "@LCL", "M=D"], ?_⟩
  simp [genCall]

end VM

namespace VM

/-- Witness for C1: `call Sys.init 2` from the initial generator state on
the machine `machW` (SP = 305). -/
theorem claim1_witness :
    (5 : Int) ≤ machW.mem 0 ∧
    (((run labW machW (genCall initialGenSt "Sys.init" ((2 : Nat) : Int)).1).mem
          (machW.mem 0) =
        resolveAt labW
          (initialGenSt.currentFunctionName ++ "$ret." ++
            natReprS initialGenSt.retIndex).data ∧
      (run labW machW (genCall initialGenSt "Sys.init" ((2 : Nat) : Int)).1).mem
          (machW.mem 0 + 1) = machW.mem 1 ∧
      (run labW machW (genCall initialGenSt "Sys.init" ((2 : Nat) : Int)).1).mem
          (machW.mem 0 + 2) = machW.mem 2 ∧
      (run labW machW (genCall initialGenSt "Sys.init" ((2 : Nat) : Int)).1).mem
          (machW.mem 0 + 3) = machW.mem 3 ∧
      (run labW machW (genCall initialGenSt "Sys.init" ((2 : Nat) : Int)).1).mem
          (machW.mem 0 + 4) = machW.mem 4) ∧
    (run labW machW (genCall initialGenSt "Sys.init" ((2 : Nat) : Int)).1).mem 0 =
      machW.mem 0 + 5 ∧
    (run labW machW (genCall initialGenSt "Sys.init" ((2 : Nat) : Int)).1).mem 2 =
      (run labW machW (genCall initialGenSt "Sys.init" ((2 : Nat) : Int)).1).mem 0
        - 5 - ((2 : Nat) : Int) ∧
    (run labW machW (genCall initialGenSt "Sys.init" ((2 : Nat) : Int)).1).mem 1 =
      (run labW machW (genCall initialGenSt "Sys.init" ((2 : Nat) : Int)).1).mem 0 ∧
    (∃ pre, (genCall initialGenSt "Sys.init" ((2 : Nat) : Int)).1 =
      pre ++ ["/// call ; goto function " ++ "Sys.init", "@" ++ "Sys.init",
        "0;JMP",
        "(" ++ (initialGenSt.currentFunctionName ++ "$ret." ++
          natReprS initialGenSt.retIndex) ++ ")"]) ∧
    (genCall initialGenSt "Sys.init" ((2 : Nat) : Int)).2 =
      { initialGenSt with retIndex := initialGenSt.retIndex + 1 }) :=
  ⟨by decide,
   claim1_call_protocol initialGenSt "Sys.init" 2 labW machW (by decide)⟩

end VM

namespace VM

/-- Claim C2: For a `return`, the generator emits, in order: capture LCL as
the frame pointer (into R13); read the return address from frame−5 (into
R14); write the top of stack into the caller's ARG slot 0; set SP to
ARG+1; restore THAT, THIS, ARG, LCL from frame−1 down to frame−4; jump to
the captured return address.  Executed on a well-formed frame (frame
pointer F = LCL ≥ 19 so the frame slots cannot alias cells 0-14, caller
ARG base between 15 and F−5 as the call protocol guarantees, SP ≥ 16),
the final state has SP = ARG+1 (exactly one past the single return-value
slot, which holds the old top of stack) and the four segment bases THAT,
THIS, ARG, LCL equal to the values the call saved at frame−1 … frame−4 —
their pre-call values; the jump target (register A at the final `0;JMP`)
is the value captured from frame−5 before the ARG slot was overwritten.
The trailing-lines conjunct pins the jump as the last emitted step. -/
theorem claim2_return_teardown (i : Instruction) (lab : List Char → Int)
    (m : Mach) (hS : 16 ≤ m.mem 0) (hF : 19 ≤ m.mem 1) (hA : 15 ≤ m.mem 2)
    (hAF : m.mem 2 ≤ m.mem 1 - 5) :
    (run lab m i.genReturn).mem 0 = m.mem 2 + 1 ∧
    (run lab m i.genReturn).mem (m.mem 2) = m.mem (m.mem 0 - 1) ∧
    (run lab m i.genReturn).mem 4 = m.mem (m.mem 1 - 1) ∧
    (run lab m i.genReturn).mem 3 = m.mem (m.mem 1 - 2) ∧
    (run lab m i.genReturn).mem 2 = m.mem (m.mem 1 - 3) ∧
    (run lab m i.genReturn).mem 1 = m.mem (m.mem 1 - 4) ∧
    (run lab m i.genReturn).A = m.mem (m.mem 1 - 5) ∧
    ∃ pre, i.genReturn =
      pre ++ ["/// return ; goto caller", "@R14", "A=M", "0;JMP"] := by
  have hsem :
      (run lab m i.genReturn).mem 0 = m.mem 2 + 1 ∧
      (run lab m i.genReturn).mem (m.mem 2) = m.mem (m.mem 0 - 1) ∧
      (run lab m i.genReturn).mem 4 = m.mem (m.mem 1 - 1) ∧
      (run lab m i.genReturn).mem 3 = m.mem (m.mem 1 - 2) ∧
      (run lab m i.genReturn).mem 2 = m.mem (m.mem 1 - 3) ∧
      (run lab m i.genReturn).mem 1 = m.mem (m.mem 1 - 4) ∧
      (run lab m i.genReturn).A = m.mem (m.mem 1 - 5) := by
    have e1 : m.mem 1 - 1 - 1 = m.mem 1 - 2 := by omega
    have e2 : m.mem 1 - 2 - 1 = m.mem 1 - 3 := by omega
    have e3 : m.mem 1 - 3 - 1 = m.mem 1 - 4 := by omega
    have q0 : ¬ ((0:Int) = m.mem 2) := by omega
    have q2 : ¬ ((2:Int) = m.mem 2) := by omega
    have q13 : ¬ ((13:Int) = m.mem 2) := by omega
    have q14 : ¬ ((14:Int) = m.mem 2) := by omega
    have r0 : ¬ (m.mem 2 = 0) := by omega
    have r1 : ¬ (m.mem 2 = 1) := by omega
    have r2 : ¬ (m.mem 2 = 2) := by omega
    have r3 : ¬ (m.mem 2 = 3) := by omega
    have r4 : ¬ (m.mem 2 = 4) := by omega
    have r13 : ¬ (m.mem 2 = 13) := by omega
    have r14 : ¬ (m.mem 2 = 14) := by omega
    have s13 : ¬ (m.mem 0 - 1 = 13) := by omega
    have s14 : ¬ (m.mem 0 - 1 = 14) := by omega
    have t5 : ¬ (m.mem 1 - 5 = 13) := by omega
    have u10 : ¬ (m.mem 1 - 1 = 0) := by omega
    have u11 : ¬ (m.mem 1 - 1 = 1) := by omega
    have u12 : ¬ (m.mem 1 - 1 = 2) := by omega
    have u13 : ¬ (m.mem 1 - 1 = 3) := by omega
    have u14 : ¬ (m.mem 1 - 1 = 4) := by omega
    have u1a : ¬ (m.mem 1 - 1 = 13) := by omega
    have u1b : ¬ (m.mem 1 - 1 = 14) := by omega
    have u1c : ¬ (m.mem 1 - 1 = m.mem 2) := by omega
    have u20 : ¬ (m.mem 1 - 2 = 0) := by omega
    have u21 : ¬ (m.mem 1 - 2 = 1) := by omega
    have u22 : ¬ (m.mem 1 - 2 = 2) := by omega
    have u23 : ¬ (m.mem 1 - 2 = 3) := by omega
    have u24 : ¬ (m.mem 1 - 2 = 4) := by omega
    have u2a : ¬ (m.mem 1 - 2 = 13) := by omega
    have u2b : ¬ (m.mem 1 - 2 = 14) := by omega
    have u2c : ¬ (m.mem 1 - 2 = m.mem 2) := by omega
    have u30 : ¬ (m.mem 1 - 3 = 0) := by omega
    have u31 : ¬ (m.mem 1 - 3 = 1) := by omega
    have u32 : ¬ (m.mem 1 - 3 = 2) := by omega
    have u33 : ¬ (m.mem 1 - 3 = 3) := by omega
    have u34 : ¬ (m.mem 1 - 3 = 4) := by omega
    have u3a : ¬ (m.mem 1 - 3 = 13) := by omega
    have u3b : ¬ (m.mem 1 - 3 = 14) := by omega
    have u3c : ¬ (m.mem 1 - 3 = m.mem 2) := by omega
    have u40 : ¬ (m.mem 1 - 4 = 0) := by omega
    have u41 : ¬ (m.mem 1 - 4 = 1) := by omega
    have u42 : ¬ (m.mem 1 - 4 = 2) := by omega
    have u43 : ¬ (m.mem 1 - 4 = 3) := by omega
    have u44 : ¬ (m.mem 1 - 4 = 4) := by omega
    have u4a : ¬ (m.mem 1 - 4 = 13) := by omega
    have u4b : ¬ (m.mem 1 - 4 = 14) := by omega
    have u4c : ¬ (m.mem 1 - 4 = m.mem 2) := by omega
    simp [Instruction.genReturn, SegmentType.ID, SegmentType.toStr, upd, step_at,
      e1, e2, e3, q0, q2, q13, q14, r0, r1, r2, r3, r4, r13, r14,
      s13, s14, t5, u10, u11, u12, u13, u14, u1a, u1b, u1c,
      u20, u21, u22, u23, u24, u2a, u2b, u2c,
      u30, u31, u32, u33, u34, u3a, u3b, u3c,
      u40, u41, u42, u43, u44, u4a, u4b, u4c]
  refine ⟨hsem.1, hsem.2.1, hsem.2.2.1, hsem.2.2.2.1, hsem.2.2.2.2.1,
    hsem.2.2.2.2.2.1, hsem.2.2.2.2.2.2, ?_⟩
  refine ⟨["/// return ; endFrame = LCL", "@LCL", "D=M", "@R13", "M=D",
    "/// return ; retAddr = D = RAM[endFrame - 5]", "@5", "A=D-A", "D=M",
    "@R14", "M=D",
    "/// return ; RAM[ARG] = pop() = RAM[SP-1]", "@SP", "A=M-1", "D=M",
    "@ARG", "A=M", "M=D",
    "/// return ; SP = ARG + 1", "@ARG", "D=M+1", "@SP", "M=D"] ++
    ([SegmentType.thatSeg, .thisSeg, .arg, .lcl].flatMap fun seg =>
      ["/// " ++ i.Line ++ " ; working with " ++ seg.toStr,
       "@R13", "ADM=M-1", "D=M", "@" ++ seg.ID, "M=D"]), ?_⟩
  simp [Instruction.genReturn]

/-- A concrete parsed `return` instruction for the C2 witness. -/
def retW : Instruction :=
  ⟨"Mod", "return", .ret, "", .constant, "", 0, .add, 0⟩

/-- Witness for C2: `return` on the machine `machW` (SP 305, frame 300,
caller ARG base 290). -/
theorem claim2_witness :
    ((16 : Int) ≤ machW.mem 0 ∧ (19 : Int) ≤ machW.mem 1 ∧
     (15 : Int) ≤ machW.mem 2 ∧ machW.mem 2 ≤ machW.mem 1 - 5) ∧
    ((run labW machW retW.genReturn).mem 0 = machW.mem 2 + 1 ∧
    (run labW machW retW.genReturn).mem (machW.mem 2) =
      machW.mem (machW.mem 0 - 1) ∧
    (run labW machW retW.genReturn).mem 4 = machW.mem (machW.mem 1 - 1) ∧
    (run labW machW retW.genReturn).mem 3 = machW.mem (machW.mem 1 - 2) ∧
    (run labW machW retW.genReturn).mem 2 = machW.mem (machW.mem 1 - 3) ∧
    (run labW machW retW.genReturn).mem 1 = machW.mem (machW.mem 1 - 4) ∧
    (run labW machW retW.genReturn).A = machW.mem (machW.mem 1 - 5) ∧
    ∃ pre, retW.genReturn =
      pre ++ ["/// return ; goto caller", "@R14", "A=M", "0;JMP"]) :=
  ⟨⟨by decide, by decide, by decide, by decide⟩,
   claim2_return_teardown retW labW machW (by decide) (by decide) (by decide)
     (by decide)⟩

end VM

namespace VM

theorem findIdx?_spec {α : Type} (p : α → Bool) (l : List α) (i : Nat)
    (h : l.findIdx? p = some i) : ∃ x, l.get? i = some x ∧ p x = true := by
  induction l generalizing i with
  | nil => simp [List.findIdx?] at h
  | cons a l ih =>
    rw [List.findIdx?_cons] at h
    by_cases hp : p a
    · simp [hp] at h
      subst h
      exact ⟨a, rfl, hp⟩
    · simp [hp] at h
      obtain ⟨a, ha, hai⟩ := h
      obtain ⟨x, hx, hpx⟩ := ih _ ha
      refine ⟨x, ?_, hpx⟩
      rw [← hai]
      simpa using hx


/-- Claim C4: With several input modules of which exactly one contains a
line with `function Sys.init 0`: whenever translation succeeds, the
output consists of the fixed bootstrap header (SP set to 256) followed by the
generated `call Sys.init 0`, before any module's generated commands; and
the command stream those commands are generated from is the cleaned lines
of all other modules in input order followed by the entry-point module's
lines — the entry-point module is scanned and emitted last.  With several
modules and no entry point anywhere, translation fails fatally (an `err`
result: the Go program exits before writing any output). -/
theorem claim4_bootstrap_and_ordering (ms : List Module) :
    (1 < ms.length → ms.countP containsSysInit = 1 →
      ∃ i m, findSysInitIdx ms = some i ∧ ms.get? i = some m ∧
        containsSysInit m = true ∧
        ∀ out, linkModules ms = .ok out →
          ∃ body,
            out = bootstrapHeader ++ (genCall initialGenSt "Sys.init" 0).1 ++ body ∧
            genAll 0 (genCall initialGenSt "Sys.init" 0).2
              ((ms.eraseIdx i ++ [m]).flatMap Module.cleanedTagged) = .ok body) ∧
    (1 < ms.length → ms.countP containsSysInit = 0 →
      linkModules ms = .err "Sys.init not found in any source file") := by
  constructor
  · intro hlen hcnt
    cases hfi : findSysInitIdx ms with
    | none =>
      exfalso
      rw [findSysInitIdx, List.findIdx?_eq_none_iff] at hfi
      rw [List.countP_eq_zero.mpr (fun x hx => by simp [hfi x hx])] at hcnt
      exact absurd hcnt (by decide)
    | some i =>
      obtain ⟨m, hm, hpm⟩ := findIdx?_spec _ _ _ hfi
      refine ⟨i, m, rfl, hm, hpm, ?_⟩
      intro out hout
      unfold linkModules at hout
      rw [hfi] at hout
      have hord : orderedModules ms (some i) = ms.eraseIdx i ++ [m] := by
        unfold orderedModules
        rw [if_pos hlen]
        show ms.eraseIdx i ++
          (match ms.get? i with
           | some m => [m]
           | none => []) = ms.eraseIdx i ++ [m]
        rw [hm]
      simp only [hord] at hout
      simp only [show ¬ (some i = none ∧ True) from by simp,
        if_false, ne_eq, reduceCtorEq, not_false_eq_true, if_true] at hout
      by_cases hemp : (ms.eraseIdx i ++ [m]).flatMap Module.cleanedTagged = []
      · rw [if_pos hemp] at hout
        exact absurd hout (by simp)
      · rw [if_neg hemp] at hout
        cases hgen : genAll 0 (genCall initialGenSt "Sys.init" 0).2
            ((ms.eraseIdx i ++ [m]).flatMap Module.cleanedTagged) with
        | ok body =>
          rw [hgen] at hout
          simp at hout
          exact ⟨body, by rw [← hout]; simp, rfl⟩
        | err msg =>
          rw [hgen] at hout
          exact absurd hout (by simp)
        | panics msg =>
          rw [hgen] at hout
          exact absurd hout (by simp)
  · intro hlen hcnt
    have hfi : findSysInitIdx ms = none := by
      rw [findSysInitIdx, List.findIdx?_eq_none_iff]
      exact fun x hx => by
        have := List.countP_eq_zero.mp hcnt
        simpa using this x hx
    unfold linkModules
    rw [hfi]
    simp [hlen]

/-- Two-module witness program for C4: `A.vm` plus the `Sys.vm` module
holding the entry point. -/
def msA : List Module :=
  [⟨"A.vm", ["push constant 1"]⟩,
   ⟨"Sys.vm", ["function Sys.init 0", "push constant 2"]⟩]

/-- Two-module program without an entry point, for C4's fatal branch. -/
def msB : List Module :=
  [⟨"A.vm", ["push constant 1"]⟩, ⟨"B.vm", ["push constant 2"]⟩]

/-- Witness for C4: both branches applied to concrete module lists. -/
theorem claim4_witness :
    (1 < msA.length ∧ msA.countP containsSysInit = 1 ∧
      ∃ i m, findSysInitIdx msA = some i ∧ msA.get? i = some m ∧
        containsSysInit m = true ∧
        ∀ out, linkModules msA = .ok out →
          ∃ body,
            out = bootstrapHeader ++ (genCall initialGenSt "Sys.init" 0).1 ++ body ∧
            genAll 0 (genCall initialGenSt "Sys.init" 0).2
              ((msA.eraseIdx i ++ [m]).flatMap Module.cleanedTagged) = .ok body) ∧
    (1 < msB.length ∧ msB.countP containsSysInit = 0 ∧
      linkModules msB = .err "Sys.init not found in any source file") :=
  ⟨⟨by decide, by decide,
    (claim4_bootstrap_and_ordering msA).1 (by decide) (by decide)⟩,
   ⟨by decide, by decide,
    (claim4_bootstrap_and_ordering msB).2 (by decide) (by decide)⟩⟩

end VM
